import Mathlib

/-!
# Verification of the MKVScanner rendition-generation pipeline

A shallow embedding, in Lean 4, of the core of `src/index.ts` of the
MKVScanner repository: the rendition Planner (`createStreaming`, including
`shouldSkipVideo`), the Task Scheduler (`checkQueue` with its two queues and
retry policy), the Progress Aggregator (`videoProgress`), and the Manifest
Assembler (the DASH-manifest post-processing step).

Conventions used throughout:

* JavaScript numbers are modelled as `ℚ` (all numeric literals in the
  relevant code are exactly representable; float-vs-rational divergence for
  the literal `853.33` is noted where it occurs and is irrelevant to every
  claim proved here).
* JavaScript `Map` objects are modelled as association lists
  (`List (String × α)`), with `Map.get`/`Map.set`/`Map.delete` modelled by
  `alGet`/`alSet`/`alDel`.
* The two regular expressions consumed by `videoProgress` are implemented
  as executable matchers over `List Char`, reproducing the JavaScript
  leftmost-match / greedy-backtracking behaviour of those particular
  patterns (both patterns are deterministic once the comma of the first
  pattern is chosen; greediness of `.+` means the rightmost viable comma is
  used, and `.` does not match a line terminator).
* Console output (`process.stdout.write`, `console.log`) is elided: it does
  not feed back into any data consulted by the code under verification.
-/

namespace MKVScanner

/-! ## Association-list model of JavaScript `Map` -/

/-- Model of `Map.get`: first binding of the key, if any. -/
def alGet {α : Type} : List (String × α) → String → Option α
  | [], _ => none
  | (k, v) :: r, key => if k = key then some v else alGet r key

/-- Model of `Map.set`: overwrite the existing binding or append a new one. -/
def alSet {α : Type} : List (String × α) → String → α → List (String × α)
  | [], key, v => [(key, v)]
  | (k, w) :: r, key, v => if k = key then (key, v) :: r else (k, w) :: alSet r key v

/-- Model of `Map.delete`: remove every binding of the key. -/
def alDel {α : Type} : List (String × α) → String → List (String × α)
  | [], _ => []
  | (k, w) :: r, key => if k = key then alDel r key else (k, w) :: alDel r key

/-! ## Character classes and digit parsing (JS regex classes `\d`, `\s`, `.`) -/

/-- JS regex `\d`. -/
def isDigitCh (c : Char) : Bool := '0' ≤ c && c ≤ '9'

/-- JS regex `\s` (the whitespace characters that occur in process output). -/
def isSpaceCh (c : Char) : Bool := c = ' ' || c = '\t' || c = '\n' || c = '\r'

/-- JS regex `.` without the `s` flag: any character but a line terminator. -/
def isDotCh (c : Char) : Bool := c ≠ '\n' && c ≠ '\r'

/-- Numeric value of a decimal digit character. -/
def digitVal (c : Char) : ℕ := c.toNat - 48

/-- Value of a run of decimal digits (most significant first). -/
def natOfDigits (l : List Char) : ℕ := l.foldl (fun a c => a * 10 + digitVal c) 0

/-! ## The matcher for `/time=(\d\d):(\d\d):(\d\d(\.\d+)?)/`

`videoProgress` converts the three captured fields with `toInt`, which
parses the leading integer part, so the optional fraction of the seconds
field is discarded.  The matcher therefore returns
`h * 3600 + m * 60 + s` for the first position at which the pattern
matches (JS `exec` scans start positions left to right). -/

/-- Try the body of the time pattern (after the literal `time=`). -/
def parseTimeBody : List Char → Option ℕ
  | h1 :: h2 :: c1 :: m1 :: m2 :: c2 :: s1 :: s2 :: _ =>
    if isDigitCh h1 && isDigitCh h2 && c1 = ':' && isDigitCh m1 && isDigitCh m2 &&
        c2 = ':' && isDigitCh s1 && isDigitCh s2 then
      some ((digitVal h1 * 10 + digitVal h2) * 3600 +
            (digitVal m1 * 10 + digitVal m2) * 60 +
            (digitVal s1 * 10 + digitVal s2))
    else none
  | _ => none

/-- Try the whole time pattern at the current position. -/
def timeHere : List Char → Option ℕ
  | 't' :: 'i' :: 'm' :: 'e' :: '=' :: rest => parseTimeBody rest
  | _ => none

/-- Scan start positions left to right, as JS `exec` does. -/
def findTime : List Char → Option ℕ
  | [] => none
  | c :: rest =>
    match timeHere (c :: rest) with
    | some v => some v
    | none => findTime rest

/-- Model of `/time=(\d\d):(\d\d):(\d\d(\.\d+)?)/.exec(data)` followed by the
`toInt` conversions: total elapsed seconds, or `none` when the line does not
match. -/
def matchTime (s : String) : Option ℕ := findTime s.toList

/-! ## The matcher for `/task.+,\s*(\d+\.\d+)\s*%/`

After the literal `task`, `.+` (greedy, no line terminators) must reach a
comma, after which `\s*(\d+\.\d+)\s*%` must match.  Greediness of `.+`
means the rightmost comma admitting a completion is the one used; every
subpattern after the comma is deterministic (`\s*` cannot steal from `\d+`
and vice versa).  The capture `(\d+\.\d+)` is converted with `toNumber`;
we return its exact rational value. -/

/-- Parse `\s*(\d+\.\d+)\s*%` and return the captured value as a rational. -/
def parsePercentAfterComma (l : List Char) : Option ℚ :=
  let l1 := l.dropWhile isSpaceCh
  let ds := l1.takeWhile isDigitCh
  let r1 := l1.dropWhile isDigitCh
  if ds.isEmpty then none
  else
    match r1 with
    | '.' :: r2 =>
      let fs := r2.takeWhile isDigitCh
      let r3 := r2.dropWhile isDigitCh
      if fs.isEmpty then none
      else if (r3.dropWhile isSpaceCh).head? = some '%' then
        some ((natOfDigits ds : ℚ) + (natOfDigits fs : ℚ) / ((10 : ℚ) ^ fs.length))
      else none
    | _ => none

/-- The suffixes following each comma reachable from the current position by
`.+` (at least one non-terminator character before the comma, none of the
skipped characters a line terminator), in left-to-right comma order. -/
def commaSplitsAux : Bool → List Char → List (List Char)
  | _, [] => []
  | started, c :: rest =>
    if isDotCh c then
      (if started && c = ',' then [rest] else []) ++ commaSplitsAux true rest
    else []

/-- All comma splits admissible for `task.+,` once `task` has been read. -/
def commaSplits (l : List Char) : List (List Char) := commaSplitsAux false l

/-- Try the whole task-percent pattern at the current position: the literal
`task`, then the rightmost comma split whose continuation parses. -/
def taskPercentHere : List Char → Option ℚ
  | 't' :: 'a' :: 's' :: 'k' :: rest =>
    ((commaSplits rest).filterMap parsePercentAfterComma).getLast?
  | _ => none

/-- Scan start positions left to right, as JS `exec` does. -/
def findTaskPercent : List Char → Option ℚ
  | [] => none
  | c :: rest =>
    match taskPercentHere (c :: rest) with
    | some v => some v
    | none => findTaskPercent rest

/-- Model of `/task.+,\s*(\d+\.\d+)\s*%/.exec(data)` followed by
`toNumber($[1])`: the reported percentage, or `none` when the line does not
match. -/
def matchTaskPercent (s : String) : Option ℚ := findTaskPercent s.toList

/-! ## The Progress Aggregator: `videoProgress`

State of the `VideoProgress` record.  The `duration` field is always set by
`createStreaming` (it builds the record as `{ duration }`), so it is modelled
as a plain rational.  The `lastOutput` field only feeds the overwritten
console status line, which is elided (it is rebuilt from the maps on every
update and is never read by the Scheduler).  `Date.now()` is modelled by an
explicit `now : ℤ` argument. -/

structure VPState where
  duration : ℚ
  percent : List (String × ℚ)
  speed : List (String × ℚ)
  errors : List (String × ℕ)
  starts : List (String × ℤ)
  readFromError : Bool
deriving DecidableEq, Repr

/-- Model of `round(x, 0.1)` from `@tubular/math` (round to the nearest
multiple of `0.1`, JS `Math.round` halves going up). -/
def roundToTenth (x : ℚ) : ℚ := (⌊x * 10 + 1 / 2⌋ : ℚ) / 10

/-- Shallow embedding of `videoProgress(data, stream, name, done, progress)`
from `src/index.ts` lines 384–441.  Every branch mirrors the source:

* the body runs only when `stream === 0`, or non-empty data arrives with
  `readFromError` set, or `done`;
* `duration` is overridden to `180000` for the `320p` sample task;
* the percent-complete marker is tried first, then the time-elapsed marker,
  whose seconds are converted to a percentage of the duration
  (`secs * 100000 / duration`, the duration being in milliseconds);
* on `done` with `stream > 0` the per-name error counter is bumped, on
  `done` with `stream < 0` (a redo cancellation) the start time is dropped;
* percents and speeds are (re)computed only when a marker matched or the
  call is a non-error completion, and written only when the percent changed.

Division by zero (`ℚ` yields `0`, JS yields a non-finite number) can only
occur with `duration = 0` or a zero elapsed time; the theorems below either
assume a positive duration or do not inspect the affected `speed` value. -/
def videoProgressModel (data : String) (stream : ℤ) (name : String) (done : Bool)
    (now : ℤ) (st : VPState) : VPState :=
  if stream = 0 ∨ (data ≠ "" ∧ st.readFromError) ∨ done then
    let duration : ℚ := if name = "320p" then 180000 else st.duration
    let parsed : Option ℚ :=
      match matchTaskPercent data with
      | some q => some q
      | none =>
        match matchTime data with
        | some secs => some ((secs : ℚ) * 100000 / duration)
        | none => none
    let st1 :=
      if done ∧ 0 < stream then
        { st with errors := alSet st.errors name ((alGet st.errors name).getD 0 + 1) }
      else st
    let st2 :=
      if done ∧ stream < 0 then { st1 with starts := alDel st1.starts name } else st1
    if parsed.isSome ∨ (done ∧ stream ≤ 0) then
      let percent : ℚ :=
        if stream < 0 then -1
        else if done then 100
        else min (roundToTenth (parsed.getD 0)) (999 / 10)
      let lastPercent : ℚ := (alGet st2.percent name).getD (-1)
      let startAndSt : ℤ × VPState :=
        match alGet st2.starts name with
        | some v => (v, st2)
        | none => (now, { st2 with starts := alSet st2.starts name now })
      let start := startAndSt.1
      let st3 := startAndSt.2
      if lastPercent ≠ percent then
        let elapsed : ℚ := ((now - start : ℤ) : ℚ)
        let spd : ℚ := if stream < 0 then -1 else duration * percent / 100 / elapsed
        { st3 with
          percent := alSet st3.percent name percent,
          speed := alSet st3.speed name spd }
      else st3
    else st2
  else st

/-! ## The Task Scheduler

Embedding of the scheduling loop of `createStreaming`
(`src/index.ts` lines 676–754): the pending queue `videoQueue`, the serial
`redoQueue`, the `running` counter, `checkQueue`, the success/failure
callbacks of parallel and redo dispatches, and `cleanUpAndFail`.

A task carries its name and its attempt counter (`tries`); the scheduler
state additionally records which tasks currently own a live external
process (`runningPar` for tasks dispatched from the pending queue, whose
dispatch increments `running`, and `runningRedo` for tasks dispatched from
the redo queue, whose dispatch — as in the source — does *not* touch
`running`).

The single-threaded, event-driven control flow is modelled as a transition
system: `checkQueue` is a function run to completion, and each settlement
of a task's promise (success or failure) is one atomic event that performs
its bookkeeping and then calls `checkQueue`, exactly as the corresponding
callback in the source does.  The percentage a failing parallel task had
reached (`progress.percent?.get(task.name) || 0` in the source) is an event
parameter, since it is produced by the externally-fed progress map. -/

structure VTask where
  name : String
  tries : ℕ
deriving DecidableEq, Repr

structure SchedState where
  /-- Field `videoQueue`: dispatch removes the *last* element (`Array.pop`),
  parallel retries insert at index 0 (`splice(0, 0, task)`). -/
  pending : List VTask
  /-- Field `redoQueue`: dispatch removes the first element (`splice(0, 1)`),
  requeues append (`push`). -/
  redo : List VTask
  /-- Tasks dispatched from the pending queue whose process is live. -/
  runningPar : List VTask
  /-- Tasks dispatched from the redo queue whose process is live. -/
  runningRedo : List VTask
  /-- The `running` counter. -/
  running : ℕ
  /-- The promise was resolved. -/
  resolved : Bool
  /-- The promise was rejected (`cleanUpAndFail` ran). -/
  failed : Bool
deriving DecidableEq, Repr

/-- Constant `maxTries = 6` (line 678). -/
def maxTries : ℕ := 6

/-- Constant `simultaneousMax = 6` (line 677). -/
def simultaneousMax : ℕ := 6

/-- The source's parallel-retry condition (line 719), taken on the already
incremented attempt count:
`++task.tries < maxTries * 3 / 4 && percentDone < 10 || task.tries < maxTries / 2`.
JS evaluates `maxTries * 3 / 4` in floating point, giving exactly `4.5`. -/
def parallelRetryCond (tries : ℕ) (percentDone : ℚ) : Bool :=
  (decide ((tries : ℚ) < (maxTries : ℚ) * 3 / 4) && decide (percentDone < 10)) ||
    decide ((tries : ℚ) < (maxTries : ℚ) / 2)

/-- The retry condition as the claim words it: attempt count below
`floor(0.75 × maxTries)` (with progress below 10 %), or below
`floor(0.5 × maxTries)`.  With `maxTries = 6` the floors are 4 and 3. -/
def claimRetryCond (tries : ℕ) (percentDone : ℚ) : Bool :=
  (decide (percentDone < 10) && decide (tries < maxTries * 3 / 4)) ||
    decide (tries < maxTries / 2)

/-- Function `checkQueue` (lines 702–751), with explicit fuel so that the recursion
(which consumes one pending task per round) is structural.  The three
branches are, in order: parallel dispatch (recursing, line 731), serial redo
dispatch (no recursion), and resolution. -/
def checkQueueAux : ℕ → SchedState → SchedState
  | 0, s => s
  | fuel + 1, s =>
    if s.running < simultaneousMax ∧ s.pending ≠ [] then
      match s.pending.getLast? with
      | some t =>
        checkQueueAux fuel
          { s with
            pending := s.pending.dropLast,
            running := s.running + 1,
            runningPar := t :: s.runningPar }
      | none => s
    else if s.running = 0 ∧ s.redo ≠ [] then
      match s.redo with
      | t :: rest => { s with redo := rest, runningRedo := t :: s.runningRedo }
      | [] => s
    else if s.running = 0 then { s with resolved := true }
    else s

/-- Function `checkQueue` with enough fuel to drain the pending queue. -/
def checkQueue (s : SchedState) : SchedState := checkQueueAux (s.pending.length + 1) s

/-- The promise-settlement events. -/
inductive SchedEv where
  /-- A parallel task's process exits successfully. -/
  | succPar (t : VTask)
  /-- A parallel task's process fails; `pct` is
  `progress.percent?.get(task.name) || 0` at that moment. -/
  | failPar (t : VTask) (pct : ℚ)
  /-- A redo task's process exits successfully. -/
  | succRedo (t : VTask)
  /-- A redo task's process fails. -/
  | failRedo (t : VTask)
deriving DecidableEq, Repr

/-- One settlement event, mirroring the callbacks attached in `checkQueue`:

* parallel success (lines 708–712): finalize the output, decrement
  `running`, `checkQueue`;
* parallel failure (lines 713–729): decrement `running`, increment the
  attempt count, and either reinsert at index 0 of the pending queue or
  push onto the redo queue according to `parallelRetryCond`, then
  `checkQueue`;
* redo success (line 737): finalize, `checkQueue`;
* redo failure (lines 738–747): increment the attempt count; requeue on the
  redo queue and `checkQueue` while below `maxTries`, otherwise
  `cleanUpAndFail` (lines 682–694): the redo queue is drained into
  `videoQueue` (whose tasks' processes are killed — none of our modelled
  live sets keeps them) and the promise is rejected.

`none` means the event is not enabled in this state (no such live task, or
the promise already settled). -/
def schedStep (s : SchedState) (e : SchedEv) : Option SchedState :=
  if s.failed ∨ s.resolved then none
  else
    match e with
    | .succPar t =>
      if t ∈ s.runningPar then
        some (checkQueue
          { s with runningPar := s.runningPar.erase t, running := s.running - 1 })
      else none
    | .failPar t pct =>
      if t ∈ s.runningPar then
        let s1 := { s with runningPar := s.runningPar.erase t, running := s.running - 1 }
        let t1 : VTask := { t with tries := t.tries + 1 }
        some (checkQueue
          (if parallelRetryCond t1.tries pct then { s1 with pending := t1 :: s1.pending }
           else { s1 with redo := s1.redo ++ [t1] }))
      else none
    | .succRedo t =>
      if t ∈ s.runningRedo then
        some (checkQueue { s with runningRedo := s.runningRedo.erase t })
      else none
    | .failRedo t =>
      if t ∈ s.runningRedo then
        let t1 : VTask := { t with tries := t.tries + 1 }
        if t1.tries < maxTries then
          some (checkQueue
            { s with runningRedo := s.runningRedo.erase t, redo := s.redo ++ [t1] })
        else
          some { s with
            runningRedo := s.runningRedo.erase t,
            pending := s.pending ++ s.redo,
            redo := [],
            failed := true }
      else none

/-- The state in which the scheduling promise starts: the planned tasks in
the pending queue, followed by the initial `checkQueue()` call (line 753). -/
def initSched (tasks : List VTask) : SchedState :=
  checkQueue
    { pending := tasks, redo := [], runningPar := [], runningRedo := [],
      running := 0, resolved := false, failed := false }

/-- States reachable from a given state by settlement events. -/
inductive SchedReachable (init : SchedState) : SchedState → Prop where
  | refl : SchedReachable init init
  | tail {s s' : SchedState} {e : SchedEv} :
      SchedReachable init s → schedStep s e = some s' → SchedReachable init s'

/-! ## The Rendition Planner

Embedding of the planning phase of `createStreaming`
(`src/index.ts` lines 526–672): the early ineligibility checks, the
`shouldSkipVideo` predicate, the counters `videoCount` and
`groupedVideoCount`, and the construction of the task queue.

The environment record collects the inputs the planning phase consults: the
source descriptor (pixel dimensions, stereoscopy, audio tracks, movie/extra
classification) and the output directory's presence map (the `.mpd`
manifest, the `.av.webm` file, the mobile and sample files, the per-height
`.v<h>.webm` files, and the `busy.txt` marker). -/

structure StreamingEnv where
  isMovie : Bool
  isExtra : Bool
  /-- The source has a video track (`video` is not `undefined`). -/
  hasVideo : Bool
  /-- Pixel width `w` (line 537). -/
  srcW : ℚ
  /-- Pixel height `h` (line 537). -/
  srcH : ℚ
  /-- Whether `video?.properties.stereo_mode` is set. -/
  stereo : Bool
  /-- Whether `busy.txt` exists beside the output. -/
  busy : Bool
  /-- The `.mpd` manifest exists. -/
  existsMpd : Bool
  /-- The `.av.webm` file exists. -/
  existsAv : Bool
  /-- The `.mobile.mp4` file exists (`hasMobile`). -/
  hasMobile : Bool
  /-- The `.sample.mp4` file exists (`hasSample`). -/
  hasSample : Bool
  /-- The `.v<height>.webm` file exists, per height. -/
  existsVH : ℕ → Bool
  /-- Channel counts of the audio tracks, in track order. -/
  audios : List ℕ
deriving Inhabited

/-- The candidate rendition table (line 530).  The literal `853.33` is the
nearest double to `853.33`; we use the exact rational, which differs from
the double by less than `10 ^ (-13)` and decides every comparison in this
development identically. -/
def resolutions : List (ℚ × ℕ) :=
  [(1920, 1080), (1280, 720), (853.33, 480), (640, 360), (569, 320)]

/-- Flag `hasDesktopVideo` (line 544): the manifest or the combined av file. -/
def hasDesktopVideo (env : StreamingEnv) : Bool := env.existsMpd || env.existsAv

/-- Predicate `shouldSkipVideo(streamW, streamH)` (lines 556–558). -/
def shouldSkipVideo (env : StreamingEnv) (streamW : ℚ) (streamH : ℕ) : Bool :=
  (!env.isMovie && streamH = 1080) ||
  (env.isExtra && decide (480 < streamH)) ||
  (decide (env.srcW * 1.25 < streamW) && decide (env.srcH * 1.25 < (streamH : ℚ))) ||
  (hasDesktopVideo env && decide (480 ≤ streamH)) ||
  (env.hasMobile && streamH = 360) ||
  (env.hasSample && streamH = 320)

/-- Counter `videoCount` (line 559): zero without a video track, otherwise the
candidates surviving `shouldSkipVideo`. -/
def videoCount (env : StreamingEnv) : ℕ :=
  if !env.hasVideo then 0
  else (resolutions.filter (fun r => !shouldSkipVideo env r.1 r.2)).length

/-- Counter `groupedVideoCount` (line 560). -/
def groupedVideoCount (env : StreamingEnv) : ℤ :=
  (videoCount env : ℤ) - (if env.hasMobile || !env.hasVideo then 0 else 1) -
    (if env.hasSample || !env.hasVideo then 0 else 1)

/-- Whether the Manifest Assembler step runs (line 759):
`groupedVideoCount > 1`. -/
def needsManifest (env : StreamingEnv) : Bool := decide (1 < groupedVideoCount env)

/-- Whether the output file of a planned rendition already exists
(`existsAsync(videoPath)`, line 634): heights below 480 write the mobile or
sample file; larger heights write `.av.webm` when `groupedVideoCount === 1`
and `.v<height>.webm` otherwise (line 627). -/
def renditionFileExists (env : StreamingEnv) (h : ℕ) : Bool :=
  if h < 480 then (if h = 320 then env.hasSample else env.hasMobile)
  else if groupedVideoCount env = 1 then env.existsAv
  else env.existsVH h

/-- The heights of the tasks pushed onto `videoQueue` (lines 618–672): the
candidates surviving `shouldSkipVideo` whose output file does not already
exist, in table order.  Empty without a video track (line 614). -/
def plannedHeights (env : StreamingEnv) : List ℕ :=
  if !env.hasVideo then []
  else
    ((resolutions.filter
        (fun r => !shouldSkipVideo env r.1 r.2 && !renditionFileExists env r.2)).map
      (fun r => r.2))

/-- The planned tasks, named `<height>p` with zero tries (line 671). -/
def plannedTasks (env : StreamingEnv) : List VTask :=
  (plannedHeights env).map (fun h => ⟨toString h ++ "p", 0⟩)

/-- How far an invocation of `createStreaming` gets before any rendition
task exists or any external process is spawned (lines 541–571). -/
inductive RunStart where
  /-- Returned `false` at line 542: too tall, stereoscopic, or busy. -/
  | skippedIneligible
  /-- Returned `false` at line 549: desktop, mobile and sample artifacts
  all present already. -/
  | skippedComplete
  /-- Threw a `TypeError` at line 569 reading
  `audio.properties.audio_channels` with no audio track. -/
  | noAudioTrackError
  /-- Proceeds to generate content for the planned tasks. -/
  | proceeds (tasks : List VTask) (manifest : Bool)
deriving DecidableEq, Repr

/-- The guarded prefix of `createStreaming`, in source order: the
ineligibility checks of line 541, the all-artifacts check of line 548, then
the first dereference of the primary audio track (line 569; the
`audios.find` fallbacks of the special case at line 565 also yield
`undefined` on an empty list, so an empty `audios` always throws there).
Only the `proceeds` outcome carries planned tasks. -/
def createStreamingStart (env : StreamingEnv) : RunStart :=
  if 1100 < env.srcH ∨ env.stereo = true ∨ env.busy = true then .skippedIneligible
  else if hasDesktopVideo env && env.hasMobile && env.hasSample then .skippedComplete
  else if env.audios.isEmpty then .noAudioTrackError
  else .proceeds (plannedTasks env) (needsManifest env)

/-- The value `createStreaming` returns for each start outcome (`none` for
a thrown error). -/
def runReturn : RunStart → Option Bool
  | .skippedIneligible => some false
  | .skippedComplete => some false
  | .noAudioTrackError => none
  | .proceeds _ _ => some true

/-- A lower bound on the external processes spawned for each start outcome
(retries and the audio generation pass only add spawns); what the claims
need is that the two skip outcomes and the thrown error spawn nothing at
all, which holds because every `spawn` call in `createStreaming` occurs
after line 571. -/
def runSpawnLowerBound : RunStart → ℕ
  | .skippedIneligible => 0
  | .skippedComplete => 0
  | .noAudioTrackError => 0
  | .proceeds tasks manifest => tasks.length + (if manifest then 1 else 0)

/-- Number of kept large (non-small, `h ≥ 480`) renditions. -/
def largeKept (env : StreamingEnv) : ℕ :=
  ((resolutions.filter (fun r => 480 ≤ r.2)).filter
    (fun r => !shouldSkipVideo env r.1 r.2)).length

/-- Presence map after a fully successful run, read off the code's success
paths:

* `.mobile.mp4` and `.sample.mp4` are produced exactly when a video track
  exists and the 360/320 candidates are not skipped (their outputs are the
  mobile and sample files, renamed into place on task success);
* the desktop artifact appears when it was already there, or the audio
  generation pass writes `<root>.av.webm` (lines 574–609: an audio track
  exists, `groupedVideoCount ≠ 1`, no desktop artifact yet, and the name is
  `av` exactly when `groupedVideoCount === 0`), or a single grouped large
  rendition is written as `<root>.av.webm` (line 627 with
  `groupedVideoCount === 1`), or the Manifest Assembler writes the `.mpd`
  (`groupedVideoCount > 1`, lines 759–787). -/
def afterSuccessfulRun (env : StreamingEnv) : StreamingEnv :=
  { env with
    existsMpd := env.existsMpd || needsManifest env,
    existsAv := env.existsAv ||
      (!env.audios.isEmpty && decide (groupedVideoCount env = 0) && !hasDesktopVideo env) ||
      (env.hasVideo && decide (groupedVideoCount env = 1) && decide (1 ≤ largeKept env)),
    hasMobile := env.hasMobile || (env.hasVideo && !shouldSkipVideo env 640 360),
    hasSample := env.hasSample || (env.hasVideo && !shouldSkipVideo env 569 320) }

/-! ## The Manifest Assembler post-processing

Embedding of the manifest fix-up of `createStreaming`
(`src/index.ts` lines 781–804): after the multiplexer writes the manifest,
the `BaseURL` elements are rewritten with

`.replace(/(<BaseURL>).*[/\\](.*?)(<\/BaseURL>)/g, ...)`

replacing each matched element value by the part after its last path
separator, HTML-escaped when it contains one of `& < >` and no
entity-shaped substring.

`.` does not match line terminators and the manifests written by the
multiplexer carry one `BaseURL` element per line, so the replacement acts
line by line; a manifest is modelled as a list of lines, each either a
single `BaseURL` element (with arbitrary surrounding text on the same line;
the value itself does not contain the closing tag, which is what the lazy
`(.*?)` group stops at) or a non-matching line. -/

/-- Path separators accepted by the regex class `[/\\]`. -/
def isSepCh (c : Char) : Bool := c = '/' || c = '\\'

/-- The segment after the last path separator (the whole string when it has
no separator).  This is what the greedy `.*[/\\]` followed by the lazy
`(.*?)` captures. -/
def baseNameAux (cur : List Char) : List Char → List Char
  | [] => cur
  | c :: r => if isSepCh c then baseNameAux [] r else baseNameAux (cur ++ [c]) r

/-- Bare base name of a reference value. -/
def baseName (s : String) : String := ⟨baseNameAux [] s.data⟩

/-- Whether a value contains a path separator (i.e. whether the regex
matches the element at all). -/
def containsSep (s : String) : Bool := s.data.any isSepCh

/-- Test `/[&<>]/.test(path)`. -/
def hasMarkupChar (s : String) : Bool :=
  s.data.any (fun c => c = '&' || c = '<' || c = '>')

/-- The character class `[#a-z0-9]` of the entity test. -/
def isEntityCh (c : Char) : Bool :=
  c = '#' || ('a' ≤ c && c ≤ 'z') || ('0' ≤ c && c ≤ '9')

/-- Whether an entity-shaped substring starts at the current position. -/
def entityHere : List Char → Bool
  | '&' :: rest =>
    !(rest.takeWhile isEntityCh).isEmpty &&
      (rest.dropWhile isEntityCh).head? = some ';'
  | _ => false

/-- Test `/&[#a-z0-9]+;/.test(path)`, scanning all start positions. -/
def hasEntityAux : List Char → Bool
  | [] => false
  | c :: r => entityHere (c :: r) || hasEntityAux r

/-- Whether the value already contains an entity-shaped substring. -/
def hasEntity (s : String) : Bool := hasEntityAux s.data

/-- Expansion of one character under HTML escaping. -/
def escapeChar (c : Char) : List Char :=
  if c = '&' then '&' :: 'a' :: 'm' :: 'p' :: ';' :: []
  else if c = '<' then '&' :: 'l' :: 't' :: ';' :: []
  else if c = '>' then '&' :: 'g' :: 't' :: ';' :: []
  else [c]

/-- Modelled from the spec: `htmlEscape` of the external `@tubular/util`
library ("HTML-escapes any reference value containing markup-significant
characters"), replacing the markup-significant characters `& < >` by their
named entities. -/
def htmlEscape (s : String) : String := ⟨(s.data.map escapeChar).flatten⟩

/-- The replacement applied to the value of one `BaseURL` element: no
change when the value has no separator (the regex does not match);
otherwise the bare base name, HTML-escaped when it contains a
markup-significant character and no entity-shaped substring (lines
798–803). -/
def fixBaseURLValue (s : String) : String :=
  if containsSep s then
    let b := baseName s
    if hasMarkupChar b && !hasEntity b then htmlEscape b else b
  else s

/-- One line of a manifest. -/
inductive MLine where
  /-- Line `pre<BaseURL>value</BaseURL>post`, the only `BaseURL` element on its
  line; `value` does not contain the closing tag. -/
  | baseURL (pre : String) (value : String) (post : String)
  /-- A line without a `BaseURL` element. -/
  | other (text : String)
deriving DecidableEq, Repr

/-- The whole-manifest rewriting (the `replace` with the `g` flag at lines
796–804): every `BaseURL` element value is rewritten, everything else is
untouched. -/
def fixManifest (m : List MLine) : List MLine :=
  m.map fun line =>
    match line with
    | .baseURL pre v post => .baseURL pre (fixBaseURLValue v) post
    | .other t => .other t

/-- The file-system operations of the manifest phase. -/
inductive MFileOp where
  /-- The multiplexer finishes writing the manifest at `tmp(mpdPath)`
  (line 786). -/
  | writeTmp (c : List MLine)
  /-- Step `rename(tmp(mpdPath), mpdPath)` (line 787). -/
  | renameTmpToFinal
  /-- Step `writeFile(mpdPath, ...)` writing the rewritten content (line 796). -/
  | writeFinal (c : List MLine)
deriving DecidableEq, Repr

/-- Contents of the temporary and final manifest paths. -/
structure MFiles where
  tmpFile : Option (List MLine)
  finalFile : Option (List MLine)
deriving DecidableEq, Repr

/-- Effect of one operation on the two paths. -/
def applyMOp (fs : MFiles) : MFileOp → MFiles
  | .writeTmp c => { fs with tmpFile := some c }
  | .renameTmpToFinal => { tmpFile := none, finalFile := fs.tmpFile }
  | .writeFinal c => { fs with finalFile := some c }

/-- The success path of the manifest phase (lines 786–804), in source
order: the multiplexer writes the raw manifest to the temporary path, the
temporary file is renamed to the final name, and only then is the rewritten
content written back at the final name. -/
def manifestPhase (raw : List MLine) : List MFileOp :=
  [.writeTmp raw, .renameTmpToFinal, .writeFinal (fixManifest raw)]

/-- Content observable under the final manifest name after a sequence of
operations (starting from neither path existing). -/
def finalAfter (ops : List MFileOp) : Option (List MLine) :=
  (ops.foldl applyMOp ⟨none, none⟩).finalFile

/-! ## Concrete instances used by witnesses and counterexamples -/

/-- A movie asset at native 1080p whose output directory already holds the
desktop manifest but neither the mobile nor the sample rendition. -/
def envC6 : StreamingEnv :=
  { isMovie := true, isExtra := false, hasVideo := true,
    srcW := 1920, srcH := 1080, stereo := false, busy := false,
    existsMpd := true, existsAv := false, hasMobile := false, hasSample := false,
    existsVH := fun _ => false, audios := [6] }

/-- A movie asset at native 1080p with an empty output directory. -/
def envFresh : StreamingEnv :=
  { isMovie := true, isExtra := false, hasVideo := true,
    srcW := 1920, srcH := 1080, stereo := false, busy := false,
    existsMpd := false, existsAv := false, hasMobile := false, hasSample := false,
    existsVH := fun _ => false, audios := [6] }

/-- An output directory that already holds every required artifact. -/
def envComplete : StreamingEnv :=
  { isMovie := true, isExtra := false, hasVideo := true,
    srcW := 1920, srcH := 1080, stereo := false, busy := false,
    existsMpd := true, existsAv := false, hasMobile := true, hasSample := true,
    existsVH := fun _ => false, audios := [6] }

/-- An eligible asset with no audio track at all. -/
def envNoAudio : StreamingEnv :=
  { isMovie := true, isExtra := false, hasVideo := true,
    srcW := 1920, srcH := 1080, stereo := false, busy := false,
    existsMpd := false, existsAv := false, hasMobile := false, hasSample := false,
    existsVH := fun _ => false, audios := [] }

/-- A concrete raw manifest as the multiplexer writes it: one `BaseURL`
element per line, each referencing an absolute path. -/
def rawManifestC3 : List MLine :=
  [.other "<MPD>",
   .baseURL "  " "/mnt/streaming/Movies/Example.v1080.webm" "",
   .baseURL "  " "/mnt/streaming/Movies/Example.v720.webm" "",
   .other "</MPD>"]

/-- Total number of tasks anywhere in the scheduler (queued or live). -/
def totalCount (s : SchedState) : ℕ :=
  s.pending.length + s.redo.length + s.runningPar.length + s.runningRedo.length

/-- The scheduling invariant: the `running` counter counts exactly the live
parallel tasks, never exceeds the concurrency limit; at most one redo task
is live, and while one is, no parallel task is live and nothing is
pending. -/
def SchedInv (s : SchedState) : Prop :=
  s.running = s.runningPar.length ∧
  s.runningPar.length ≤ simultaneousMax ∧
  s.runningRedo.length ≤ 1 ∧
  (s.runningRedo ≠ [] → s.runningPar = [] ∧ s.pending = [])

/-- Between events the scheduler is quiescent: `checkQueue` has run to
completion, so no parallel dispatch is possible (unless the run failed). -/
def SchedQuiescent (s : SchedState) : Prop :=
  s.failed = true ∨ ¬(s.running < simultaneousMax ∧ s.pending ≠ [])

/-- The five-task queue of a fresh full-height asset. -/
def tasksAll : List VTask :=
  [⟨"1080p", 0⟩, ⟨"720p", 0⟩, ⟨"480p", 0⟩, ⟨"360p", 0⟩, ⟨"320p", 0⟩]

/-- A reachable state with one live parallel task on its fourth attempt
(three failures below 10 % progress so far). -/
def sC1 : SchedState :=
  { pending := [], redo := [], runningPar := [⟨"480p", 3⟩], runningRedo := [],
    running := 1, resolved := false, failed := false }

/-- A reachable state with one live redo task on its sixth attempt. -/
def sRedoC4 : SchedState :=
  { pending := [], redo := [], runningPar := [], runningRedo := [⟨"480p", 5⟩],
    running := 0, resolved := false, failed := false }

/-- The aborted state produced when the redo task of `sRedoC4` fails. -/
def sAbortC4 : SchedState :=
  { pending := [], redo := [], runningPar := [], runningRedo := [],
    running := 0, resolved := false, failed := true }

/-- The state reached from `initSched tasksAll` when the `1080p` task fails
at 5 % progress: the task, on its second attempt, is running again at once. -/
def sC5 : SchedState :=
  { pending := [], redo := [],
    runningPar := [⟨"1080p", 1⟩, ⟨"720p", 0⟩, ⟨"480p", 0⟩, ⟨"360p", 0⟩, ⟨"320p", 0⟩],
    runningRedo := [], running := 5, resolved := false, failed := false }

/-- A progress state for a 240000 ms asset with no samples recorded yet. -/
def stC9 : VPState :=
  { duration := 240000, percent := [], speed := [], errors := [], starts := [],
    readFromError := false }

/-! # Theorems -/

/-! ## Rendition Planner lemmas -/

theorem shouldSkip_360_eq (env : StreamingEnv) (hh : (288 : ℚ) ≤ env.srcH) :
    shouldSkipVideo env 640 360 = env.hasMobile := by
  have h1 : ¬ env.srcH * 1.25 < (360 : ℚ) := by nlinarith
  simp [shouldSkipVideo, h1]

theorem shouldSkip_320_eq (env : StreamingEnv) (hh : (288 : ℚ) ≤ env.srcH) :
    shouldSkipVideo env 569 320 = env.hasSample := by
  have h1 : ¬ env.srcH * 1.25 < (320 : ℚ) := by nlinarith
  simp [shouldSkipVideo, h1]

theorem videoCount_split (env : StreamingEnv) (hv : env.hasVideo = true)
    (hh : (288 : ℚ) ≤ env.srcH) :
    videoCount env =
      largeKept env + (if env.hasMobile then 0 else 1) + (if env.hasSample then 0 else 1) := by
  have h360 := shouldSkip_360_eq env hh
  have h320 := shouldSkip_320_eq env hh
  simp only [videoCount, largeKept, resolutions, hv, List.filter, Bool.not_true,
    Bool.false_eq_true, if_false, h360, h320]
  cases env.hasMobile <;> cases env.hasSample <;>
    cases h1 : shouldSkipVideo env 1920 1080 <;>
    cases h2 : shouldSkipVideo env 1280 720 <;>
    cases h3 : shouldSkipVideo env 853.33 480 <;>
    simp [h1, h2, h3]

theorem grouped_eq_largeKept (env : StreamingEnv) (hv : env.hasVideo = true)
    (hh : (288 : ℚ) ≤ env.srcH) :
    groupedVideoCount env = (largeKept env : ℤ) := by
  rw [groupedVideoCount, videoCount_split env hv hh, hv]
  cases env.hasMobile <;> cases env.hasSample <;> simp

/-- Claim C6 (counterexample): For the concrete asset `envC6` — desktop
artifacts already present (via the manifest), mobile and sample absent — the
Planner does *not* yield the `{480p, 360p, 320p}` tasks with a positive
"needs manifest" decision: `shouldSkipVideo` drops every height `≥ 480`
when a desktop artifact exists, so only `{360p, 320p}` remain, and the
grouped count (which does not count pre-existing renditions) is 0. -/
theorem c6_claim_counterexample :
    ¬(plannedHeights envC6 = [480, 360, 320] ∧ needsManifest envC6 = true) := by
  norm_num [plannedHeights, envC6, resolutions, shouldSkipVideo, hasDesktopVideo,
    renditionFileExists, needsManifest, groupedVideoCount, videoCount, List.filter]

/-- Claim C6 (amended): For an asset whose output directory already contains
the desktop artifacts (manifest or av file) but not the mobile or sample
artifacts, the Planner yields exactly the `{360p, 320p}` tasks and the
"needs manifest" decision is *false*: `groupedVideoCount` counts only the
renditions generated by this run (excluding the mobile and sample outputs),
giving 0. -/
theorem c6_planner_desktop_present (env : StreamingEnv)
    (hd : hasDesktopVideo env = true) (hm : env.hasMobile = false)
    (hs : env.hasSample = false) (_hmv : env.isMovie = true) (_he : env.isExtra = false)
    (hv : env.hasVideo = true) (hh : (288 : ℚ) ≤ env.srcH) :
    plannedHeights env = [360, 320] ∧ needsManifest env = false := by
  have h360 : shouldSkipVideo env 640 360 = false := by
    rw [shouldSkip_360_eq env hh, hm]
  have h320 : shouldSkipVideo env 569 320 = false := by
    rw [shouldSkip_320_eq env hh, hs]
  have sk1080 : shouldSkipVideo env 1920 1080 = true := by simp [shouldSkipVideo, hd]
  have sk720 : shouldSkipVideo env 1280 720 = true := by simp [shouldSkipVideo, hd]
  have sk480 : shouldSkipVideo env 853.33 480 = true := by simp [shouldSkipVideo, hd]
  have hlarge : largeKept env = 0 := by
    simp [largeKept, resolutions, List.filter, sk1080, sk720, sk480]
  constructor
  · simp [plannedHeights, resolutions, hv, List.filter, sk1080, sk720, sk480,
      h360, h320, renditionFileExists, hm, hs]
  · rw [needsManifest, grouped_eq_largeKept env hv hh, hlarge]
    decide

/-- Claim C6 (witness): The amended statement holds at the concrete asset
`envC6`. -/
theorem c6_planner_desktop_present_witness :
    hasDesktopVideo envC6 = true ∧ envC6.hasMobile = false ∧ envC6.hasSample = false ∧
    (288 : ℚ) ≤ envC6.srcH ∧
    plannedHeights envC6 = [360, 320] ∧ needsManifest envC6 = false :=
  ⟨by norm_num [envC6, hasDesktopVideo], by norm_num [envC6], by norm_num [envC6],
    by norm_num [envC6],
    c6_planner_desktop_present envC6 (by norm_num [envC6, hasDesktopVideo])
      (by norm_num [envC6]) (by norm_num [envC6]) (by norm_num [envC6])
      (by norm_num [envC6]) (by norm_num [envC6]) (by norm_num [envC6])⟩

/-- Claim C7: (1) Whenever the output directory already contains every
required artifact (desktop manifest or av file, mobile video, sample
video), `createStreaming` returns `false` ("no work done") without spawning
any external process.  (2) Hence a second identical run after a fully
successful run (one that proceeded past the guards, for an asset with a
video track of height ≥ 288) finds all the artifacts its first run
produced, is skipped as complete, returns `false`, and spawns nothing. -/
theorem c7_idempotent_second_run :
    (∀ env : StreamingEnv,
        (hasDesktopVideo env && env.hasMobile && env.hasSample) = true →
        runReturn (createStreamingStart env) = some false ∧
        runSpawnLowerBound (createStreamingStart env) = 0) ∧
    (∀ (env : StreamingEnv) (tasks : List VTask) (manifest : Bool),
        createStreamingStart env = .proceeds tasks manifest →
        env.hasVideo = true → (288 : ℚ) ≤ env.srcH →
        createStreamingStart (afterSuccessfulRun env) = .skippedComplete ∧
        runReturn (createStreamingStart (afterSuccessfulRun env)) = some false ∧
        runSpawnLowerBound (createStreamingStart (afterSuccessfulRun env)) = 0) := by
  constructor
  · intro env hart
    by_cases h1 : (1100 < env.srcH ∨ env.stereo = true ∨ env.busy = true)
    · rw [createStreamingStart, if_pos h1]
      exact ⟨rfl, rfl⟩
    · rw [createStreamingStart, if_neg h1, if_pos hart]
      exact ⟨rfl, rfl⟩
  · intro env tasks manifest hstart hv hh
    have hnotelig : ¬(1100 < env.srcH ∨ env.stereo = true ∨ env.busy = true) := by
      intro hcon
      rw [createStreamingStart, if_pos hcon] at hstart
      exact RunStart.noConfusion hstart
    have haud : env.audios.isEmpty = false := by
      cases hcon : env.audios.isEmpty
      · rfl
      · rw [createStreamingStart, if_neg hnotelig] at hstart
        by_cases h2 : (hasDesktopVideo env && env.hasMobile && env.hasSample) = true
        · rw [if_pos h2] at hstart; exact RunStart.noConfusion hstart
        · rw [if_neg h2, if_pos hcon] at hstart; exact RunStart.noConfusion hstart
    have hmob : (afterSuccessfulRun env).hasMobile = true := by
      simp [afterSuccessfulRun, hv, shouldSkip_360_eq env hh]
    have hsamp : (afterSuccessfulRun env).hasSample = true := by
      simp [afterSuccessfulRun, hv, shouldSkip_320_eq env hh]
    have hgrouped := grouped_eq_largeKept env hv hh
    have hdesk : hasDesktopVideo (afterSuccessfulRun env) = true := by
      rcases Nat.lt_or_ge (largeKept env) 1 with hlk | hlk
      · have hl0 : groupedVideoCount env = 0 := by rw [hgrouped]; omega
        by_cases hd : hasDesktopVideo env = true
        · rcases Bool.or_eq_true_iff.1 hd with hmpd | hav
          · simp [hasDesktopVideo, afterSuccessfulRun, hmpd]
          · simp [hasDesktopVideo, afterSuccessfulRun, hav]
        · have hd0 : hasDesktopVideo env = false := by
            revert hd; cases hasDesktopVideo env <;> simp
          have hd' : env.existsMpd = false ∧ env.existsAv = false := by
            simpa [hasDesktopVideo] using hd0
          simp [hasDesktopVideo, afterSuccessfulRun, needsManifest, haud, hl0,
            hd'.1, hd'.2]
      · rcases Nat.lt_or_ge (largeKept env) 2 with hlk2 | hlk2
        · have hl1 : groupedVideoCount env = 1 := by rw [hgrouped]; omega
          simp [hasDesktopVideo, afterSuccessfulRun, hv, hl1, hlk]
        · have hman : needsManifest env = true := by
            rw [needsManifest, hgrouped]
            simp only [decide_eq_true_eq]
            omega
          simp [hasDesktopVideo, afterSuccessfulRun, hman]
    have hfinal : createStreamingStart (afterSuccessfulRun env) = .skippedComplete := by
      rw [createStreamingStart]
      rw [if_neg (by simpa [afterSuccessfulRun] using hnotelig)]
      rw [if_pos (by rw [hdesk, hmob, hsamp]; rfl)]
    exact ⟨hfinal, by rw [hfinal]; rfl, by rw [hfinal]; rfl⟩

/-- Claim C7 (witness): Both parts instantiated: a directory with every
artifact present is skipped with zero spawns; a fresh 1080p movie run
proceeds, and its successful completion makes the second run a zero-spawn
skip. -/
theorem c7_idempotent_second_run_witness :
    ((hasDesktopVideo envComplete && envComplete.hasMobile && envComplete.hasSample) = true ∧
      runReturn (createStreamingStart envComplete) = some false ∧
      runSpawnLowerBound (createStreamingStart envComplete) = 0) ∧
    (createStreamingStart envFresh = .proceeds (plannedTasks envFresh) (needsManifest envFresh) ∧
      createStreamingStart (afterSuccessfulRun envFresh) = .skippedComplete) :=
  ⟨⟨by norm_num [envComplete, hasDesktopVideo],
    c7_idempotent_second_run.1 envComplete (by norm_num [envComplete, hasDesktopVideo])⟩,
    ⟨by norm_num [createStreamingStart, envFresh, hasDesktopVideo],
      (c7_idempotent_second_run.2 envFresh (plannedTasks envFresh) (needsManifest envFresh)
        (by norm_num [createStreamingStart, envFresh, hasDesktopVideo])
        (by norm_num [envFresh]) (by norm_num [envFresh])).1⟩⟩

/-- Claim C10: An invocation of `createStreaming` with an empty audio-track
list that passes the early ineligibility checks (height ≤ 1100, not
stereoscopic, no busy marker, artifacts not all present) throws while
dereferencing the primary audio track (`audio.properties.audio_channels`,
line 569), before any rendition task is created and before any external
process is spawned: the run's outcome is `noAudioTrackError`, which carries
no planned task and spawns nothing. -/
theorem c10_empty_audio_throws (env : StreamingEnv)
    (hh : env.srcH ≤ 1100) (hst : env.stereo = false) (hb : env.busy = false)
    (hart : (hasDesktopVideo env && env.hasMobile && env.hasSample) = false)
    (ha : env.audios = []) :
    createStreamingStart env = .noAudioTrackError ∧
    runReturn (createStreamingStart env) = none ∧
    runSpawnLowerBound (createStreamingStart env) = 0 ∧
    ∀ tasks manifest, createStreamingStart env ≠ .proceeds tasks manifest := by
  have h1 : ¬(1100 < env.srcH ∨ env.stereo = true ∨ env.busy = true) := by
    push_neg
    exact ⟨hh, by simp [hst], by simp [hb]⟩
  have hres : createStreamingStart env = .noAudioTrackError := by
    rw [createStreamingStart, if_neg h1, if_neg (by rw [hart]; exact Bool.false_ne_true),
      if_pos (by rw [ha]; rfl)]
  refine ⟨hres, by rw [hres]; rfl, by rw [hres]; rfl, ?_⟩
  intro tasks manifest hcon
  rw [hres] at hcon
  exact RunStart.noConfusion hcon

/-- Claim C10 (witness): The statement holds at the concrete no-audio asset
`envNoAudio`. -/
theorem c10_empty_audio_throws_witness :
    envNoAudio.audios = [] ∧
    createStreamingStart envNoAudio = .noAudioTrackError ∧
    runSpawnLowerBound (createStreamingStart envNoAudio) = 0 :=
  ⟨by norm_num [envNoAudio],
    (c10_empty_audio_throws envNoAudio (by norm_num [envNoAudio]) (by norm_num [envNoAudio])
      (by norm_num [envNoAudio]) (by norm_num [envNoAudio, hasDesktopVideo])
      (by norm_num [envNoAudio])).1,
    (c10_empty_audio_throws envNoAudio (by norm_num [envNoAudio]) (by norm_num [envNoAudio])
      (by norm_num [envNoAudio]) (by norm_num [envNoAudio, hasDesktopVideo])
      (by norm_num [envNoAudio])).2.2.1⟩

/-! ## Manifest Assembler lemmas -/

theorem baseNameAux_of_no_sep (l : List Char) (hl : l.any isSepCh = false) :
    ∀ cur, baseNameAux cur l = cur ++ l := by
  induction l with
  | nil => intro cur; simp [baseNameAux]
  | cons c r ih =>
    intro cur
    cases hc : isSepCh c with
    | true => rw [List.any_cons, hc] at hl; simp at hl
    | false =>
      rw [List.any_cons, hc, Bool.false_or] at hl
      simp only [baseNameAux, hc, Bool.false_eq_true, if_false]
      rw [ih hl (cur ++ [c])]
      simp

theorem baseNameAux_no_sep (l : List Char) :
    ∀ cur, cur.any isSepCh = false → (baseNameAux cur l).any isSepCh = false := by
  induction l with
  | nil => intro cur h; simpa [baseNameAux] using h
  | cons c r ih =>
    intro cur h
    cases hc : isSepCh c with
    | true =>
      simp only [baseNameAux, hc, if_true]
      exact ih [] rfl
    | false =>
      simp only [baseNameAux, hc, Bool.false_eq_true, if_false]
      exact ih (cur ++ [c]) (by simp [List.any_append, h, hc])

theorem baseNameAux_split (l : List Char) :
    ∀ cur, l.any isSepCh = true →
      ∃ (p : List Char) (c : Char),
        cur ++ l = p ++ c :: baseNameAux cur l ∧ isSepCh c = true := by
  induction l with
  | nil => intro cur h; simp at h
  | cons c r ih =>
    intro cur h
    cases hc : isSepCh c with
    | true =>
      cases hr : r.any isSepCh with
      | false =>
        refine ⟨cur, c, ?_, hc⟩
        simp only [baseNameAux, hc, if_true]
        rw [baseNameAux_of_no_sep r hr]
        simp
      | true =>
        rcases ih [] hr with ⟨p, c', hp, hc'⟩
        rw [List.nil_append] at hp
        refine ⟨cur ++ c :: p, c', ?_, hc'⟩
        simp only [baseNameAux, hc, if_true]
        conv_lhs => rw [hp]
        simp
    | false =>
      have hr : r.any isSepCh = true := by
        simpa [List.any_cons, hc] using h
      rcases ih (cur ++ [c]) hr with ⟨p, c', hp, hc2⟩
      refine ⟨p, c', ?_, hc2⟩
      simp only [baseNameAux, hc, Bool.false_eq_true, if_false]
      have hrw : cur ++ c :: r = (cur ++ [c]) ++ r := by simp
      rw [hrw, hp]

theorem htmlEscape_no_sep (s : String) (hs : containsSep s = false) :
    containsSep (htmlEscape s) = false := by
  rcases s with ⟨l⟩
  simp only [containsSep, htmlEscape] at *
  induction l with
  | nil => simp
  | cons c r ih =>
    simp only [List.any_cons, Bool.or_eq_false_iff] at hs
    simp only [List.map_cons, List.flatten_cons, List.any_append, Bool.or_eq_false_iff]
    refine ⟨?_, ih hs.2⟩
    by_cases h1 : c = '&'
    · simp [escapeChar, h1, isSepCh]
    · by_cases h2 : c = '<'
      · simp [escapeChar, h1, h2, isSepCh]
      · by_cases h3 : c = '>'
        · simp [escapeChar, h1, h2, h3, isSepCh]
        · simpa [escapeChar, h1, h2, h3] using hs.1

theorem containsSep_baseName (v : String) : containsSep (baseName v) = false := by
  rcases v with ⟨l⟩
  exact baseNameAux_no_sep l [] rfl

/-- Claim C8: After manifest post-processing, every `BaseURL` element whose
value names a path (contains a directory separator — as every reference the
Assembler passes to the multiplexer does, the inputs being absolute paths)
holds the bare base name of the referenced file: the value is decomposed as
`directory-prefix ++ separator ++ baseName`, the kept part contains no
separator, and it is HTML-escaped exactly when it contains one of `& < >`
and no entity-shaped substring; the escaped result is still separator-free.
(A value with no separator is left untouched by the regex and already is a
bare name.) -/
theorem c8_baseurl_rewrite (m : List MLine) (pre v post : String)
    (hmem : MLine.baseURL pre v post ∈ m) (hsep : containsSep v = true) :
    MLine.baseURL pre (fixBaseURLValue v) post ∈ fixManifest m ∧
    (∃ (p : List Char) (c : Char),
      v.data = p ++ c :: (baseName v).data ∧ isSepCh c = true) ∧
    containsSep (baseName v) = false ∧
    containsSep (fixBaseURLValue v) = false ∧
    fixBaseURLValue v =
      (if hasMarkupChar (baseName v) && !hasEntity (baseName v) then htmlEscape (baseName v)
       else baseName v) := by
  have hval : fixBaseURLValue v =
      (if hasMarkupChar (baseName v) && !hasEntity (baseName v) then htmlEscape (baseName v)
       else baseName v) := by
    rw [fixBaseURLValue, if_pos hsep]
  refine ⟨?_, ?_, containsSep_baseName v, ?_, hval⟩
  · have : (fun line => match line with
        | MLine.baseURL pre v post => MLine.baseURL pre (fixBaseURLValue v) post
        | MLine.other t => MLine.other t) (MLine.baseURL pre v post) =
        MLine.baseURL pre (fixBaseURLValue v) post := rfl
    rw [fixManifest]
    exact this ▸ List.mem_map_of_mem _ hmem
  · have := baseNameAux_split v.data [] (by simpa [containsSep] using hsep)
    simpa [baseName] using this
  · rw [hval]
    by_cases hesc : (hasMarkupChar (baseName v) && !hasEntity (baseName v)) = true
    · rw [if_pos hesc]
      exact htmlEscape_no_sep _ (containsSep_baseName v)
    · rw [if_neg hesc]
      exact containsSep_baseName v

/-- Claim C8 (witness): A manifest referencing
`/mnt/streaming/Movies/A & B.v720.webm` is rewritten to the escaped bare
name `A &amp; B.v720.webm`. -/
theorem c8_baseurl_rewrite_witness :
    containsSep "/mnt/streaming/Movies/A & B.v720.webm" = true ∧
    MLine.baseURL "  " (fixBaseURLValue "/mnt/streaming/Movies/A & B.v720.webm") "" ∈
      fixManifest [MLine.baseURL "  " "/mnt/streaming/Movies/A & B.v720.webm" ""] ∧
    fixBaseURLValue "/mnt/streaming/Movies/A & B.v720.webm" = "A &amp; B.v720.webm" :=
  ⟨by decide,
    (c8_baseurl_rewrite [MLine.baseURL "  " "/mnt/streaming/Movies/A & B.v720.webm" ""]
      "  " "/mnt/streaming/Movies/A & B.v720.webm" "" (List.mem_singleton.2 rfl)
      (by decide)).1,
    by decide⟩

/-- Claim C3 (counterexample): On the concrete raw manifest `rawManifestC3`
(whose `BaseURL` values are absolute paths, so the rewrite changes them),
the claim "no manifest version lacking the rewrites is ever observable
under the final name" is false: after the second operation of the manifest
phase — the rename, which the source performs *before* the `BaseURL`
rewrite — the final name holds exactly the raw, unrewritten manifest. -/
theorem c3_claim_counterexample :
    ¬ (∀ k, finalAfter ((manifestPhase rawManifestC3).take k) = none ∨
        finalAfter ((manifestPhase rawManifestC3).take k) = some (fixManifest rawManifestC3)) := by
  intro hcl
  have h2 := hcl 2
  rw [show finalAfter ((manifestPhase rawManifestC3).take 2) = some rawManifestC3 from rfl]
    at h2
  rcases h2 with h | h
  · exact Option.noConfusion h
  · have heq : rawManifestC3 = fixManifest rawManifestC3 := Option.some.inj h
    exact absurd heq (by decide)

/-- Claim C3 (amended): The multiplexer's manifest is fully written at the
temporary path and only then renamed to its final name, but the `BaseURL`
rewriting and HTML escaping are applied *afterwards*, in place under the
final name: before the rename nothing is observable under the final name,
between the rename and the rewrite the raw (unrewritten) manifest is
observable there, and after the phase completes the final name holds the
fully rewritten manifest — these are the only three observable states. -/
theorem c3_rename_precedes_rewrite (raw : List MLine) :
    finalAfter ((manifestPhase raw).take 1) = none ∧
    finalAfter ((manifestPhase raw).take 2) = some raw ∧
    finalAfter (manifestPhase raw) = some (fixManifest raw) ∧
    ∀ k, finalAfter ((manifestPhase raw).take k) = none ∨
      finalAfter ((manifestPhase raw).take k) = some raw ∨
      finalAfter ((manifestPhase raw).take k) = some (fixManifest raw) := by
  refine ⟨rfl, rfl, rfl, ?_⟩
  intro k
  match k with
  | 0 => exact Or.inl rfl
  | 1 => exact Or.inl rfl
  | 2 => exact Or.inr (Or.inl rfl)
  | (n + 3) =>
    refine Or.inr (Or.inr ?_)
    rw [List.take_of_length_le (by simp [manifestPhase])]
    rfl

/-! ## Progress Aggregator lemmas -/

theorem alGet_alSet_self {α : Type} (m : List (String × α)) (k : String) (v : α) :
    alGet (alSet m k v) k = some v := by
  induction m with
  | nil => simp [alSet, alGet]
  | cons p r ih =>
    rcases p with ⟨k', w⟩
    by_cases h : k' = k
    · simp [alSet, alGet, h]
    · simp [alSet, alGet, h, ih]

/-- Claim C9: The Progress Aggregator is total on its input lines (the model
is a total function; no branch dereferences missing data), and:
(1) a line matching neither the percent-complete marker nor the
time-elapsed marker, delivered with `done = false`, is ignored — the whole
progress state, in particular every per-task percent, speed and error
record, is returned unchanged; (2) a line matching the time-elapsed marker
(with `done = false` on the primary stream, and a positive duration — the
asset duration, or the fixed 180000 ms for the `320p` sample clip) sets the
task's percent to the elapsed time converted to a percentage of that
duration (quantised to 0.1 and capped at 99.9). -/
theorem c9_progress_lines :
    (∀ (data : String) (stream : ℤ) (name : String) (now : ℤ) (st : VPState),
      matchTaskPercent data = none → matchTime data = none →
      videoProgressModel data stream name false now st = st) ∧
    (∀ (data name : String) (now : ℤ) (st : VPState) (secs : ℕ),
      matchTaskPercent data = none → matchTime data = some secs →
      0 < (if name = "320p" then (180000 : ℚ) else st.duration) →
      alGet (videoProgressModel data 0 name false now st).percent name =
        some (min (roundToTenth ((secs : ℚ) * 100000 /
          (if name = "320p" then (180000 : ℚ) else st.duration))) (999 / 10))) := by
  constructor
  · intro data stream name now st h1 h2
    unfold videoProgressModel
    split
    · simp [h1, h2]
    · rfl
  · intro data name now st secs h1 h2 hdur
    unfold videoProgressModel
    rw [if_pos (Or.inl rfl)]
    simp only [h1, h2]
    set dur : ℚ := if name = "320p" then (180000 : ℚ) else st.duration with hdurdef
    set q : ℚ := (secs : ℚ) * 100000 / dur with hqdef
    have hq0 : 0 ≤ q := by
      rw [hqdef]
      apply div_nonneg
      · positivity
      · exact le_of_lt hdur
    have hround : 0 ≤ roundToTenth q := by
      rw [roundToTenth]
      have hfl : (0 : ℤ) ≤ ⌊q * 10 + 1 / 2⌋ := by
        apply Int.floor_nonneg.2
        linarith
      have : (0 : ℚ) ≤ (⌊q * 10 + 1 / 2⌋ : ℚ) := by exact_mod_cast hfl
      linarith
    have hp0 : 0 ≤ min (roundToTenth q) (999 / 10 : ℚ) :=
      le_min hround (by norm_num)
    simp only [Option.isSome_some, lt_irrefl, if_false, Bool.false_eq_true, false_and,
      and_false, if_neg, Option.getD_some, true_or, if_pos, or_false]
    split
    · next hne =>
      simp [alGet_alSet_self]
    · next hne =>
      push_neg at hne
      rcases hget : alGet st.percent name with _ | p
      · exfalso
        rw [hget] at hne
        simp only [Option.getD_none] at hne
        rw [← hne] at hp0
        norm_num at hp0
      · rw [hget] at hne
        simp only [Option.getD_some] at hne
        rcases hst : alGet st.starts name with _ | v <;> simp [hst, hget, hne]

/-- Claim C9 (witness): On the concrete state `stC9`: a line with neither
marker leaves the state untouched, and an `ffmpeg` `time=00:01:00` line for
the `720p` task (asset duration 240000 ms) records 25 %. -/
theorem c9_progress_lines_witness :
    matchTaskPercent "garbage progress line" = none ∧
    matchTime "garbage progress line" = none ∧
    videoProgressModel "garbage progress line" 7 "720p" false 1000 stC9 = stC9 ∧
    matchTime "frame=12 time=00:01:00.00 bitrate=3000k" = some 60 ∧
    alGet (videoProgressModel "frame=12 time=00:01:00.00 bitrate=3000k" 0 "720p" false
      1000 stC9).percent "720p" = some 25 :=
  ⟨rfl, rfl, c9_progress_lines.1 "garbage progress line" 7 "720p" 1000 stC9 rfl rfl, rfl, by
    have h := c9_progress_lines.2 "frame=12 time=00:01:00.00 bitrate=3000k" "720p" 1000
      stC9 60 rfl rfl
      (by rw [if_neg (show ¬ "720p" = "320p" from by decide)]; norm_num [stC9])
    rw [h, if_neg (show ¬ "720p" = "320p" from by decide)]
    norm_num [roundToTenth, stC9, min_def]⟩

/-! ## Task Scheduler lemmas -/

/-- The source retry condition in integer form: since the attempt count is
an integer, `tries < 4.5` is `tries ≤ 4`, i.e. `tries < 5`, and
`tries < 3` is unchanged. -/
theorem parallelRetryCond_eq (t : ℕ) (p : ℚ) :
    parallelRetryCond t p = ((decide (t < 5) && decide (p < 10)) || decide (t < 3)) := by
  unfold parallelRetryCond maxTries
  have h1 : ((t : ℚ) < ((6 : ℕ) : ℚ) * 3 / 4) ↔ t < 5 := by
    have he : ((6 : ℕ) : ℚ) * 3 / 4 = 9 / 2 := by norm_num
    rw [he]
    constructor
    · intro h
      by_contra hc
      push_neg at hc
      have h5 : (5 : ℚ) ≤ (t : ℚ) := by exact_mod_cast hc
      linarith
    · intro h
      have h4 : (t : ℚ) ≤ 4 := by exact_mod_cast Nat.lt_succ_iff.mp h
      linarith
  have h2 : ((t : ℚ) < ((6 : ℕ) : ℚ) / 2) ↔ t < 3 := by
    have he : ((6 : ℕ) : ℚ) / 2 = 3 := by norm_num
    rw [he]
    exact_mod_cast Iff.rfl
  rw [decide_eq_decide.mpr h1, decide_eq_decide.mpr h2]

theorem checkQueueAux_failed (fuel : ℕ) (s : SchedState) :
    (checkQueueAux fuel s).failed = s.failed := by
  induction fuel generalizing s with
  | zero => rfl
  | succ f ih =>
    rw [checkQueueAux]
    by_cases hc1 : s.running < simultaneousMax ∧ s.pending ≠ []
    · rw [if_pos hc1]
      rcases hl : s.pending.getLast? with _ | t
      · simp only [hl]
      · simp only [hl]
        rw [ih]
    · rw [if_neg hc1]
      by_cases hc2 : s.running = 0 ∧ s.redo ≠ []
      · rw [if_pos hc2]
        rcases hr : s.redo with _ | ⟨t, rest⟩
        · simp only [hr]
        · simp only [hr]
      · rw [if_neg hc2]
        by_cases hc3 : s.running = 0
        · rw [if_pos hc3]
        · rw [if_neg hc3]

theorem checkQueueAux_total (fuel : ℕ) (s : SchedState) :
    totalCount (checkQueueAux fuel s) = totalCount s := by
  induction fuel generalizing s with
  | zero => rfl
  | succ f ih =>
    rw [checkQueueAux]
    by_cases hc1 : s.running < simultaneousMax ∧ s.pending ≠ []
    · rw [if_pos hc1]
      rcases hl : s.pending.getLast? with _ | t
      · simp only [hl]
      · simp only [hl]
        rw [ih]
        have hpos : 0 < s.pending.length := List.length_pos.mpr hc1.2
        simp only [totalCount, List.length_cons, List.length_dropLast]
        omega
    · rw [if_neg hc1]
      by_cases hc2 : s.running = 0 ∧ s.redo ≠ []
      · rw [if_pos hc2]
        rcases hr : s.redo with _ | ⟨t, rest⟩
        · simp only [hr]
        · simp only [hr]
          simp only [totalCount, hr, List.length_cons]
          omega
      · rw [if_neg hc2]
        by_cases hc3 : s.running = 0
        · rw [if_pos hc3]
          rfl
        · rw [if_neg hc3]

theorem checkQueueAux_inv (fuel : ℕ) (s : SchedState)
    (h1 : s.running = s.runningPar.length)
    (h2 : s.runningPar.length ≤ simultaneousMax)
    (h3 : s.runningRedo = []) :
    SchedInv (checkQueueAux fuel s) := by
  induction fuel generalizing s with
  | zero =>
    rw [show checkQueueAux 0 s = s from rfl]
    exact ⟨h1, h2, by simp [h3], fun hcon => absurd h3 hcon⟩
  | succ f ih =>
    rw [checkQueueAux]
    by_cases hc1 : s.running < simultaneousMax ∧ s.pending ≠ []
    · rw [if_pos hc1]
      rcases hl : s.pending.getLast? with _ | t
      · simp only [hl]
        exact ⟨h1, h2, by simp [h3], fun hcon => absurd h3 hcon⟩
      · simp only [hl]
        apply ih
        · simp [h1]
        · simp only [List.length_cons]
          have : s.running < simultaneousMax := hc1.1
          omega
        · exact h3
    · rw [if_neg hc1]
      by_cases hc2 : s.running = 0 ∧ s.redo ≠ []
      · rw [if_pos hc2]
        rcases hr : s.redo with _ | ⟨t, rest⟩
        · simp only [hr]
          exact ⟨h1, h2, by simp [h3], fun hcon => absurd h3 hcon⟩
        · simp only [hr]
          have hrun : s.running = 0 := hc2.1
          have hpar : s.runningPar = [] :=
            List.length_eq_zero.mp (by rw [← h1, hrun])
          have hpend : s.pending = [] := by
            by_contra hne
            exact hc1 ⟨by rw [hrun]; decide, hne⟩
          exact ⟨h1, h2, by simp [h3], fun _ => ⟨hpar, hpend⟩⟩
      · rw [if_neg hc2]
        by_cases hc3 : s.running = 0
        · rw [if_pos hc3]
          exact ⟨h1, h2, by simp [h3], fun hcon => absurd h3 hcon⟩
        · rw [if_neg hc3]
          exact ⟨h1, h2, by simp [h3], fun hcon => absurd h3 hcon⟩

theorem mem_of_length_le_one {α : Type} (l : List α) (t : α)
    (h1 : l.length ≤ 1) (h2 : t ∈ l) : l = [t] := by
  rcases l with _ | ⟨a, rest⟩
  · simp at h2
  · rcases rest with _ | ⟨b, r2⟩
    · simp at h2
      rw [h2]
    · simp at h1

theorem checkQueueAux_quiescent (fuel : ℕ) (s : SchedState)
    (hf : s.pending.length < fuel) :
    ¬((checkQueueAux fuel s).running < simultaneousMax ∧
      (checkQueueAux fuel s).pending ≠ []) := by
  induction fuel generalizing s with
  | zero => omega
  | succ f ih =>
    rw [checkQueueAux]
    by_cases hc1 : s.running < simultaneousMax ∧ s.pending ≠ []
    · rw [if_pos hc1]
      rcases hl : s.pending.getLast? with _ | t
      · exact absurd (List.getLast?_eq_none_iff.mp hl) hc1.2
      · simp only [hl]
        apply ih
        rw [List.length_dropLast]
        have hpos : 0 < s.pending.length := List.length_pos.mpr hc1.2
        omega
    · rw [if_neg hc1]
      by_cases hc2 : s.running = 0 ∧ s.redo ≠ []
      · rw [if_pos hc2]
        rcases hr : s.redo with _ | ⟨t, rest⟩
        · simp only [hr]
          exact hc1
        · simp only [hr]
          have hpend : s.pending = [] := by
            by_contra hne
            exact hc1 ⟨by rw [hc2.1]; decide, hne⟩
          intro hcon
          exact hcon.2 hpend
      · rw [if_neg hc2]
        by_cases hc3 : s.running = 0
        · rw [if_pos hc3]
          exact hc1
        · rw [if_neg hc3]
          exact hc1

theorem checkQueue_quiescent (s : SchedState) :
    ¬((checkQueue s).running < simultaneousMax ∧ (checkQueue s).pending ≠ []) :=
  checkQueueAux_quiescent _ s (Nat.lt_succ_self _)

theorem checkQueueAux_mem_par (fuel : ℕ) (s : SchedState) (x : VTask)
    (hx : x ∈ s.pending ∨ x ∈ s.runningPar) :
    x ∈ (checkQueueAux fuel s).pending ∨ x ∈ (checkQueueAux fuel s).runningPar := by
  induction fuel generalizing s with
  | zero => exact hx
  | succ f ih =>
    rw [checkQueueAux]
    by_cases hc1 : s.running < simultaneousMax ∧ s.pending ≠ []
    · rw [if_pos hc1]
      rcases hl : s.pending.getLast? with _ | t
      · exact hx
      · simp only [hl]
        apply ih
        have hsplit : s.pending.dropLast ++ [t] = s.pending :=
          List.dropLast_append_getLast? t hl
        rcases hx with hp | hr
        · rw [← hsplit] at hp
          rcases List.mem_append.mp hp with h | h
          · exact Or.inl h
          · simp at h
            exact Or.inr (by simp [h])
        · exact Or.inr (List.mem_cons_of_mem t hr)
    · rw [if_neg hc1]
      by_cases hc2 : s.running = 0 ∧ s.redo ≠ []
      · rw [if_pos hc2]
        rcases hr : s.redo with _ | ⟨t, rest⟩
        · exact hx
        · exact hx
      · rw [if_neg hc2]
        by_cases hc3 : s.running = 0
        · rw [if_pos hc3]
          exact hx
        · rw [if_neg hc3]
          exact hx

theorem checkQueueAux_mem_redo (fuel : ℕ) (s : SchedState) (x : VTask)
    (hx : x ∈ s.redo ∨ x ∈ s.runningRedo) :
    x ∈ (checkQueueAux fuel s).redo ∨ x ∈ (checkQueueAux fuel s).runningRedo := by
  induction fuel generalizing s with
  | zero => exact hx
  | succ f ih =>
    rw [checkQueueAux]
    by_cases hc1 : s.running < simultaneousMax ∧ s.pending ≠ []
    · rw [if_pos hc1]
      rcases hl : s.pending.getLast? with _ | t
      · exact hx
      · simp only [hl]
        exact ih _ hx
    · rw [if_neg hc1]
      by_cases hc2 : s.running = 0 ∧ s.redo ≠ []
      · rw [if_pos hc2]
        rcases hr : s.redo with _ | ⟨t, rest⟩
        · exact hx
        · simp only [hr]
          rw [hr] at hx
          rcases hx with hq | hrr
          · rcases List.mem_cons.mp hq with h | h
            · exact Or.inr (by simp [h])
            · exact Or.inl h
          · exact Or.inr (List.mem_cons_of_mem t hrr)
      · rw [if_neg hc2]
        by_cases hc3 : s.running = 0
        · rw [if_pos hc3]
          exact hx
        · rw [if_neg hc3]
          exact hx

theorem schedStep_inv (s : SchedState) (e : SchedEv) (s' : SchedState)
    (hinv : SchedInv s) (hstep : schedStep s e = some s') : SchedInv s' := by
  obtain ⟨hi1, hi2, hi3, hi4⟩ := hinv
  by_cases hfr : (s.failed = true ∨ s.resolved = true)
  · rw [schedStep.eq_def, if_pos hfr] at hstep
    exact Option.noConfusion hstep
  · cases e with
    | succPar t =>
      simp only [schedStep, if_neg hfr] at hstep
      by_cases ht : t ∈ s.runningPar
      · rw [if_pos ht] at hstep
        have hrr : s.runningRedo = [] := by
          by_contra hne
          rw [(hi4 hne).1] at ht
          exact absurd ht (List.not_mem_nil t)
        obtain rfl := (Option.some.inj hstep).symm
        rw [checkQueue]
        apply checkQueueAux_inv
        · show s.running - 1 = (s.runningPar.erase t).length
          rw [List.length_erase_of_mem ht, hi1]
        · show (s.runningPar.erase t).length ≤ simultaneousMax
          rw [List.length_erase_of_mem ht]
          omega
        · exact hrr
      · rw [if_neg ht] at hstep
        exact Option.noConfusion hstep
    | failPar t pct =>
      simp only [schedStep, if_neg hfr] at hstep
      by_cases ht : t ∈ s.runningPar
      · rw [if_pos ht] at hstep
        have hrr : s.runningRedo = [] := by
          by_contra hne
          rw [(hi4 hne).1] at ht
          exact absurd ht (List.not_mem_nil t)
        obtain rfl := (Option.some.inj hstep).symm
        rw [checkQueue]
        by_cases hcond : parallelRetryCond (t.tries + 1) pct = true
        · rw [if_pos hcond]
          apply checkQueueAux_inv
          · show s.running - 1 = (s.runningPar.erase t).length
            rw [List.length_erase_of_mem ht, hi1]
          · show (s.runningPar.erase t).length ≤ simultaneousMax
            rw [List.length_erase_of_mem ht]
            omega
          · exact hrr
        · rw [if_neg hcond]
          apply checkQueueAux_inv
          · show s.running - 1 = (s.runningPar.erase t).length
            rw [List.length_erase_of_mem ht, hi1]
          · show (s.runningPar.erase t).length ≤ simultaneousMax
            rw [List.length_erase_of_mem ht]
            omega
          · exact hrr
      · rw [if_neg ht] at hstep
        exact Option.noConfusion hstep
    | succRedo t =>
      simp only [schedStep, if_neg hfr] at hstep
      by_cases ht : t ∈ s.runningRedo
      · rw [if_pos ht] at hstep
        have hsingle := mem_of_length_le_one _ _ hi3 ht
        obtain rfl := (Option.some.inj hstep).symm
        rw [checkQueue]
        apply checkQueueAux_inv
        · exact hi1
        · exact hi2
        · show s.runningRedo.erase t = []
          rw [hsingle]
          simp
      · rw [if_neg ht] at hstep
        exact Option.noConfusion hstep
    | failRedo t =>
      simp only [schedStep, if_neg hfr] at hstep
      by_cases ht : t ∈ s.runningRedo
      · rw [if_pos ht] at hstep
        have hsingle := mem_of_length_le_one _ _ hi3 ht
        have herase : s.runningRedo.erase t = [] := by
          rw [hsingle]
          simp
        by_cases htries : t.tries + 1 < maxTries
        · rw [if_pos htries] at hstep
          obtain rfl := (Option.some.inj hstep).symm
          rw [checkQueue]
          apply checkQueueAux_inv
          · exact hi1
          · exact hi2
          · exact herase
        · rw [if_neg htries] at hstep
          obtain rfl := (Option.some.inj hstep).symm
          refine ⟨hi1, hi2, ?_, ?_⟩
          · show (s.runningRedo.erase t).length ≤ 1
            rw [herase]
            decide
          · intro hcon
            exact absurd herase hcon
      · rw [if_neg ht] at hstep
        exact Option.noConfusion hstep

theorem reachable_inv (tasks : List VTask) (s : SchedState)
    (h : SchedReachable (initSched tasks) s) : SchedInv s := by
  induction h with
  | refl =>
    rw [initSched, checkQueue]
    apply checkQueueAux_inv
    · rfl
    · show (0 : ℕ) ≤ simultaneousMax
      decide
    · rfl
  | tail hr hstep ih => exact schedStep_inv _ _ _ ih hstep

theorem schedStep_total (s : SchedState) (e : SchedEv) (s' : SchedState)
    (hstep : schedStep s e = some s') : totalCount s' ≤ totalCount s := by
  by_cases hfr : (s.failed = true ∨ s.resolved = true)
  · rw [schedStep.eq_def, if_pos hfr] at hstep
    exact Option.noConfusion hstep
  · cases e with
    | succPar t =>
      simp only [schedStep, if_neg hfr] at hstep
      by_cases ht : t ∈ s.runningPar
      · rw [if_pos ht] at hstep
        obtain rfl := (Option.some.inj hstep).symm
        rw [checkQueue, checkQueueAux_total]
        simp only [totalCount, List.length_erase_of_mem ht]
        have : 0 < s.runningPar.length := List.length_pos.mpr (List.ne_nil_of_mem ht)
        omega
      · rw [if_neg ht] at hstep
        exact Option.noConfusion hstep
    | failPar t pct =>
      simp only [schedStep, if_neg hfr] at hstep
      by_cases ht : t ∈ s.runningPar
      · rw [if_pos ht] at hstep
        obtain rfl := (Option.some.inj hstep).symm
        rw [checkQueue, checkQueueAux_total]
        have hpos : 0 < s.runningPar.length := List.length_pos.mpr (List.ne_nil_of_mem ht)
        by_cases hcond : parallelRetryCond (t.tries + 1) pct = true
        · rw [if_pos hcond]
          simp only [totalCount, List.length_cons, List.length_erase_of_mem ht]
          omega
        · rw [if_neg hcond]
          simp only [totalCount, List.length_append, List.length_cons,
            List.length_erase_of_mem ht, List.length_nil]
          omega
      · rw [if_neg ht] at hstep
        exact Option.noConfusion hstep
    | succRedo t =>
      simp only [schedStep, if_neg hfr] at hstep
      by_cases ht : t ∈ s.runningRedo
      · rw [if_pos ht] at hstep
        obtain rfl := (Option.some.inj hstep).symm
        rw [checkQueue, checkQueueAux_total]
        simp only [totalCount, List.length_erase_of_mem ht]
        have : 0 < s.runningRedo.length := List.length_pos.mpr (List.ne_nil_of_mem ht)
        omega
      · rw [if_neg ht] at hstep
        exact Option.noConfusion hstep
    | failRedo t =>
      simp only [schedStep, if_neg hfr] at hstep
      by_cases ht : t ∈ s.runningRedo
      · rw [if_pos ht] at hstep
        have hpos : 0 < s.runningRedo.length := List.length_pos.mpr (List.ne_nil_of_mem ht)
        by_cases htries : t.tries + 1 < maxTries
        · rw [if_pos htries] at hstep
          obtain rfl := (Option.some.inj hstep).symm
          rw [checkQueue, checkQueueAux_total]
          simp only [totalCount, List.length_append, List.length_cons,
            List.length_erase_of_mem ht, List.length_nil]
          omega
        · rw [if_neg htries] at hstep
          obtain rfl := (Option.some.inj hstep).symm
          simp only [totalCount, List.length_append, List.length_nil,
            List.length_erase_of_mem ht]
          omega
      · rw [if_neg ht] at hstep
        exact Option.noConfusion hstep

theorem reachable_total (tasks : List VTask) (s : SchedState)
    (h : SchedReachable (initSched tasks) s) : totalCount s ≤ tasks.length := by
  induction h with
  | refl =>
    rw [initSched, checkQueue, checkQueueAux_total]
    simp [totalCount]
  | tail hr hstep ih => exact le_trans (schedStep_total _ _ _ hstep) ih

theorem schedStep_quiescent (s : SchedState) (e : SchedEv) (s' : SchedState)
    (hstep : schedStep s e = some s') : SchedQuiescent s' := by
  by_cases hfr : (s.failed = true ∨ s.resolved = true)
  · rw [schedStep.eq_def, if_pos hfr] at hstep
    exact Option.noConfusion hstep
  · cases e with
    | succPar t =>
      simp only [schedStep, if_neg hfr] at hstep
      by_cases ht : t ∈ s.runningPar
      · rw [if_pos ht] at hstep
        obtain rfl := (Option.some.inj hstep).symm
        exact Or.inr (checkQueue_quiescent _)
      · rw [if_neg ht] at hstep
        exact Option.noConfusion hstep
    | failPar t pct =>
      simp only [schedStep, if_neg hfr] at hstep
      by_cases ht : t ∈ s.runningPar
      · rw [if_pos ht] at hstep
        obtain rfl := (Option.some.inj hstep).symm
        exact Or.inr (checkQueue_quiescent _)
      · rw [if_neg ht] at hstep
        exact Option.noConfusion hstep
    | succRedo t =>
      simp only [schedStep, if_neg hfr] at hstep
      by_cases ht : t ∈ s.runningRedo
      · rw [if_pos ht] at hstep
        obtain rfl := (Option.some.inj hstep).symm
        exact Or.inr (checkQueue_quiescent _)
      · rw [if_neg ht] at hstep
        exact Option.noConfusion hstep
    | failRedo t =>
      simp only [schedStep, if_neg hfr] at hstep
      by_cases ht : t ∈ s.runningRedo
      · rw [if_pos ht] at hstep
        by_cases htries : t.tries + 1 < maxTries
        · rw [if_pos htries] at hstep
          obtain rfl := (Option.some.inj hstep).symm
          exact Or.inr (checkQueue_quiescent _)
        · rw [if_neg htries] at hstep
          obtain rfl := (Option.some.inj hstep).symm
          exact Or.inl rfl
      · rw [if_neg ht] at hstep
        exact Option.noConfusion hstep

theorem reachable_quiescent (tasks : List VTask) (s : SchedState)
    (h : SchedReachable (initSched tasks) s) : SchedQuiescent s := by
  induction h with
  | refl => exact Or.inr (by rw [initSched]; exact checkQueue_quiescent _)
  | tail hr hstep ih => exact schedStep_quiescent _ _ _ hstep

theorem checkQueue_singleton (p rd rp rr : List VTask) (run : ℕ) (res fl : Bool)
    (t1 : VTask) (hp : p = [t1]) (hr : run < simultaneousMax) :
    checkQueue ⟨p, rd, rp, rr, run, res, fl⟩ = ⟨[], rd, t1 :: rp, rr, run + 1, res, fl⟩ := by
  subst hp
  simp [checkQueue, checkQueueAux, hr]

/-- The Planner's queue never holds more than the five candidate
renditions. -/
theorem plannedTasks_length_le (env : StreamingEnv) : (plannedTasks env).length ≤ 5 := by
  rw [plannedTasks, List.length_map, plannedHeights]
  split
  · simp
  · rw [List.length_map]
    exact le_trans (List.length_filter_le _ _) (by rfl)

/-- Claim C2: In every state of the scheduling loop reachable from any
initial queue, the number of tasks with a live external transcoding process
— tasks dispatched from the parallel pending queue plus tasks dispatched
from the serial redo queue — is at most the concurrency limit
`simultaneousMax = 6`. -/
theorem c2_concurrency_bound (tasks : List VTask) (s : SchedState)
    (h : SchedReachable (initSched tasks) s) :
    s.runningPar.length + s.runningRedo.length ≤ simultaneousMax := by
  obtain ⟨hi1, hi2, hi3, hi4⟩ := reachable_inv tasks s h
  by_cases hrr : s.runningRedo = []
  · rw [hrr]
    simpa using hi2
  · rw [(hi4 hrr).1]
    have hsm : simultaneousMax = 6 := rfl
    simp only [List.length_nil]
    omega

/-- Claim C2 (witness): The bound holds at the initial dispatch of the full
five-task queue (where all five tasks are running at once). -/
theorem c2_concurrency_bound_witness :
    SchedReachable (initSched tasksAll) (initSched tasksAll) ∧
    (initSched tasksAll).runningPar.length + (initSched tasksAll).runningRedo.length ≤
      simultaneousMax :=
  ⟨SchedReachable.refl, c2_concurrency_bound tasksAll (initSched tasksAll) SchedReachable.refl⟩

/-- Claim C1 (counterexample): The claim's requeue condition uses
`floor(0.75 × maxTries) = 4`, but the source compares against the
floating-point value `maxTries * 3 / 4 = 4.5`.  They disagree at an
incremented attempt count of 4 with progress below 10 %: the claim says the
task moves to the serial redo queue (`claimRetryCond 4 5 = false`), yet the
scheduler — here in the reachable state `sC1` whose live task has failed
three times at 5 % progress — requeues it to the pending queue and
immediately redispatches it in parallel for a fifth attempt. -/
theorem c1_claim_counterexample :
    claimRetryCond (3 + 1) 5 = false ∧
    parallelRetryCond (3 + 1) 5 = true ∧
    SchedReachable (initSched [⟨"480p", 0⟩]) sC1 ∧
    schedStep sC1 (.failPar ⟨"480p", 3⟩ 5) =
      some { pending := [], redo := [], runningPar := [⟨"480p", 4⟩], runningRedo := [],
             running := 1, resolved := false, failed := false } := by
  refine ⟨by decide, by rw [parallelRetryCond_eq]; decide, ?_, ?_⟩
  · have h1 : schedStep (initSched [⟨"480p", 0⟩]) (.failPar ⟨"480p", 0⟩ 5) =
        some { pending := [], redo := [], runningPar := [⟨"480p", 1⟩], runningRedo := [],
               running := 1, resolved := false, failed := false } := by
      simp only [schedStep, parallelRetryCond_eq]
      decide
    have h2 : schedStep
        { pending := [], redo := [], runningPar := [⟨"480p", 1⟩], runningRedo := [],
          running := 1, resolved := false, failed := false }
        (.failPar ⟨"480p", 1⟩ 5) =
        some { pending := [], redo := [], runningPar := [⟨"480p", 2⟩], runningRedo := [],
               running := 1, resolved := false, failed := false } := by
      simp only [schedStep, parallelRetryCond_eq]
      decide
    have h3 : schedStep
        { pending := [], redo := [], runningPar := [⟨"480p", 2⟩], runningRedo := [],
          running := 1, resolved := false, failed := false }
        (.failPar ⟨"480p", 2⟩ 5) = some sC1 := by
      simp only [schedStep, parallelRetryCond_eq]
      decide
    exact SchedReachable.tail
      (SchedReachable.tail (SchedReachable.tail SchedReachable.refl h1) h2) h3
  · simp only [schedStep, parallelRetryCond_eq]
    decide

/-- Claim C1 (amended): When a parallel-phase task's process fails, the
scheduler requeues it to the pending queue for a parallel retry exactly
when (the last observed progress is below 10 % and the incremented attempt
count is below `maxTries * 3 / 4 = 4.5`, i.e. at most 4) or the incremented
attempt count is below `maxTries / 2 = 3`; in every other case the task is
moved to the serial redo queue.  (The claim's `floor(0.75 × maxTries) = 4`
must be `4.5`: JavaScript evaluates `6 * 3 / 4` in floating point and never
takes a floor.)  The requeued task may be redispatched at once by the same
`checkQueue` pass, so the conclusion places it in the pending queue or
among the live parallel tasks, and symmetrically for the redo side. -/
theorem c1_parallel_retry_tiers (s : SchedState) (t : VTask) (pct : ℚ) (s' : SchedState)
    (ht : t ∈ s.runningPar) (hstep : schedStep s (.failPar t pct) = some s') :
    parallelRetryCond (t.tries + 1) pct =
      ((decide (t.tries + 1 < 5) && decide (pct < 10)) || decide (t.tries + 1 < 3)) ∧
    (parallelRetryCond (t.tries + 1) pct = true →
      (⟨t.name, t.tries + 1⟩ : VTask) ∈ s'.pending ∨
        (⟨t.name, t.tries + 1⟩ : VTask) ∈ s'.runningPar) ∧
    (parallelRetryCond (t.tries + 1) pct = false →
      (⟨t.name, t.tries + 1⟩ : VTask) ∈ s'.redo ∨
        (⟨t.name, t.tries + 1⟩ : VTask) ∈ s'.runningRedo) := by
  by_cases hfr : (s.failed = true ∨ s.resolved = true)
  · rw [schedStep.eq_def, if_pos hfr] at hstep
    exact Option.noConfusion hstep
  · simp only [schedStep, if_neg hfr] at hstep
    rw [if_pos ht] at hstep
    by_cases hcond : parallelRetryCond (t.tries + 1) pct = true
    · rw [if_pos hcond] at hstep
      obtain rfl := (Option.some.inj hstep).symm
      refine ⟨parallelRetryCond_eq _ _, fun _ => ?_,
        fun hc => absurd hcond (by rw [hc]; exact Bool.false_ne_true)⟩
      rw [checkQueue]
      exact checkQueueAux_mem_par _ _ _ (Or.inl (List.mem_cons_self _ _))
    · rw [if_neg hcond] at hstep
      obtain rfl := (Option.some.inj hstep).symm
      refine ⟨parallelRetryCond_eq _ _, fun hc => absurd hc hcond, fun _ => ?_⟩
      rw [checkQueue]
      exact checkQueueAux_mem_redo _ _ _ (Or.inl (List.mem_append_right _ (by simp)))

/-- Claim C1 (witness): The amended rule instantiated in the reachable state
`sC1`: the fourth failure at 5 % progress is requeued for a parallel retry
(attempt count 4 is below 4.5). -/
theorem c1_parallel_retry_tiers_witness :
    (⟨"480p", 3⟩ : VTask) ∈ sC1.runningPar ∧
    parallelRetryCond (3 + 1) 5 = true ∧
    ((⟨"480p", 4⟩ : VTask) ∈
        ({ pending := [], redo := [], runningPar := [⟨"480p", 4⟩], runningRedo := [],
           running := 1, resolved := false, failed := false } : SchedState).pending ∨
      (⟨"480p", 4⟩ : VTask) ∈
        ({ pending := [], redo := [], runningPar := [⟨"480p", 4⟩], runningRedo := [],
           running := 1, resolved := false, failed := false } : SchedState).runningPar) := by
  have hstep : schedStep sC1 (.failPar ⟨"480p", 3⟩ 5) =
      some { pending := [], redo := [], runningPar := [⟨"480p", 4⟩], runningRedo := [],
             running := 1, resolved := false, failed := false } := by
    simp only [schedStep, parallelRetryCond_eq]
    decide
  have hcond : parallelRetryCond (3 + 1) 5 = true := by
    rw [parallelRetryCond_eq]
    decide
  exact ⟨by decide, hcond,
    (c1_parallel_retry_tiers sC1 ⟨"480p", 3⟩ 5 _ (by decide) hstep).2.1 hcond⟩

/-- Claim C4: Whenever a redo-queue task is live in a reachable state, no
parallel task is running and the pending queue is empty (a redo task is
started only with the parallel pool fully drained), and it is the only live
redo task (strictly one at a time).  If its process fails again: with the
incremented attempt count still below `maxTries = 6` it is requeued to the
redo queue (and possibly redispatched at once) with the pipeline not
rejected; otherwise `cleanUpAndFail` runs — the pipeline is rejected
(`failed`), no external process remains live (there provably was no other
in-flight process to terminate), and no further scheduling event is
possible, so all pending and redo work is discarded. -/
theorem c4_redo_serial_and_abort (tasks : List VTask) (s : SchedState) (t : VTask)
    (hreach : SchedReachable (initSched tasks) s) (ht : t ∈ s.runningRedo) :
    s.runningPar = [] ∧ s.pending = [] ∧ s.runningRedo = [t] ∧
    (∀ s', t.tries + 1 < maxTries → schedStep s (.failRedo t) = some s' →
      s'.failed = false ∧
      ((⟨t.name, t.tries + 1⟩ : VTask) ∈ s'.redo ∨
        (⟨t.name, t.tries + 1⟩ : VTask) ∈ s'.runningRedo)) ∧
    (∀ s', maxTries ≤ t.tries + 1 → schedStep s (.failRedo t) = some s' →
      s'.failed = true ∧ s'.runningPar = [] ∧ s'.runningRedo = [] ∧
      ∀ e, schedStep s' e = none) := by
  obtain ⟨hi1, hi2, hi3, hi4⟩ := reachable_inv tasks s hreach
  have hne : s.runningRedo ≠ [] := List.ne_nil_of_mem ht
  have hpar := (hi4 hne).1
  have hpend := (hi4 hne).2
  have hsingle := mem_of_length_le_one _ _ hi3 ht
  have herase : s.runningRedo.erase t = [] := by
    rw [hsingle]
    simp
  refine ⟨hpar, hpend, hsingle, ?_, ?_⟩
  · intro s' htries hstep
    by_cases hfr : (s.failed = true ∨ s.resolved = true)
    · rw [schedStep.eq_def, if_pos hfr] at hstep
      exact Option.noConfusion hstep
    · have hfailed : s.failed = false := by
        revert hfr
        cases s.failed <;> simp
      simp only [schedStep, if_neg hfr] at hstep
      rw [if_pos ht, if_pos htries] at hstep
      obtain rfl := (Option.some.inj hstep).symm
      constructor
      · rw [checkQueue, checkQueueAux_failed]
        exact hfailed
      · rw [checkQueue]
        exact checkQueueAux_mem_redo _ _ _ (Or.inl (List.mem_append_right _ (by simp)))
  · intro s' htries hstep
    by_cases hfr : (s.failed = true ∨ s.resolved = true)
    · rw [schedStep.eq_def, if_pos hfr] at hstep
      exact Option.noConfusion hstep
    · simp only [schedStep, if_neg hfr] at hstep
      rw [if_pos ht, if_neg (by omega : ¬ t.tries + 1 < maxTries)] at hstep
      obtain rfl := (Option.some.inj hstep).symm
      refine ⟨rfl, hpar, herase, ?_⟩
      intro e
      rw [schedStep.eq_def, if_pos (Or.inl rfl)]

/-- Claim C4 (witness): The task of `sRedoC4` (reachable after three early
parallel failures at 50 % and two redo failures) is the only live task; its
sixth failure aborts the pipeline, after which no event is accepted. -/
theorem c4_redo_serial_and_abort_witness :
    SchedReachable (initSched [⟨"480p", 0⟩]) sRedoC4 ∧
    (⟨"480p", 5⟩ : VTask) ∈ sRedoC4.runningRedo ∧
    sRedoC4.runningPar = [] ∧ sRedoC4.pending = [] ∧
    schedStep sRedoC4 (.failRedo ⟨"480p", 5⟩) = some sAbortC4 ∧
    sAbortC4.failed = true ∧
    schedStep sAbortC4 (.succRedo ⟨"480p", 5⟩) = none := by
  have h1 : schedStep (initSched [⟨"480p", 0⟩]) (.failPar ⟨"480p", 0⟩ 50) =
      some { pending := [], redo := [], runningPar := [⟨"480p", 1⟩], runningRedo := [],
             running := 1, resolved := false, failed := false } := by
    simp only [schedStep, parallelRetryCond_eq]
    decide
  have h2 : schedStep
      { pending := [], redo := [], runningPar := [⟨"480p", 1⟩], runningRedo := [],
        running := 1, resolved := false, failed := false }
      (.failPar ⟨"480p", 1⟩ 50) =
      some { pending := [], redo := [], runningPar := [⟨"480p", 2⟩], runningRedo := [],
             running := 1, resolved := false, failed := false } := by
    simp only [schedStep, parallelRetryCond_eq]
    decide
  have h3 : schedStep
      { pending := [], redo := [], runningPar := [⟨"480p", 2⟩], runningRedo := [],
        running := 1, resolved := false, failed := false }
      (.failPar ⟨"480p", 2⟩ 50) =
      some { pending := [], redo := [], runningPar := [], runningRedo := [⟨"480p", 3⟩],
             running := 0, resolved := false, failed := false } := by
    simp only [schedStep, parallelRetryCond_eq]
    decide
  have h4 : schedStep
      { pending := [], redo := [], runningPar := [], runningRedo := [⟨"480p", 3⟩],
        running := 0, resolved := false, failed := false }
      (.failRedo ⟨"480p", 3⟩) =
      some { pending := [], redo := [], runningPar := [], runningRedo := [⟨"480p", 4⟩],
             running := 0, resolved := false, failed := false } := by
    decide
  have h5 : schedStep
      { pending := [], redo := [], runningPar := [], runningRedo := [⟨"480p", 4⟩],
        running := 0, resolved := false, failed := false }
      (.failRedo ⟨"480p", 4⟩) = some sRedoC4 := by
    decide
  have hreach : SchedReachable (initSched [⟨"480p", 0⟩]) sRedoC4 :=
    SchedReachable.tail
      (SchedReachable.tail
        (SchedReachable.tail
          (SchedReachable.tail (SchedReachable.tail SchedReachable.refl h1) h2) h3) h4) h5
  have hstep : schedStep sRedoC4 (.failRedo ⟨"480p", 5⟩) = some sAbortC4 := by decide
  obtain ⟨hp, hq, _, _, habort⟩ :=
    c4_redo_serial_and_abort [⟨"480p", 0⟩] sRedoC4 ⟨"480p", 5⟩ hreach (by decide)
  obtain ⟨hf, _, _, hnone⟩ := habort sAbortC4 (by decide) hstep
  exact ⟨hreach, by decide, hp, hq, hstep, hf, hnone _⟩

/-- Claim C5: In every reachable state of a run whose initial queue came from
the Planner (at most the five candidate renditions, fewer than the
concurrency limit of 6 — see `plannedTasks_length_le`), when a parallel
task fails and qualifies for a parallel retry, the pending queue is empty
at that moment; the task is reinserted at index 0 — the front — of the
pending queue (see the `failPar` case of `schedStep`) and the same
`checkQueue` pass dispatches it immediately: afterwards it is live in the
parallel pool again and the pending queue is again empty, so it ran ahead
of every other pending task (there were none). -/
theorem c5_front_requeue_immediate (tasks : List VTask) (s : SchedState) (t : VTask)
    (pct : ℚ) (s' : SchedState)
    (hlen : tasks.length ≤ 5)
    (hreach : SchedReachable (initSched tasks) s)
    (ht : t ∈ s.runningPar)
    (hcond : parallelRetryCond (t.tries + 1) pct = true)
    (hstep : schedStep s (.failPar t pct) = some s') :
    s.pending = [] ∧ (⟨t.name, t.tries + 1⟩ : VTask) ∈ s'.runningPar ∧ s'.pending = [] := by
  obtain ⟨hi1, hi2, hi3, hi4⟩ := reachable_inv tasks s hreach
  have htot := reachable_total tasks s hreach
  have hq := reachable_quiescent tasks s hreach
  have hfr : ¬(s.failed = true ∨ s.resolved = true) := by
    intro hcon
    rw [schedStep.eq_def, if_pos hcon] at hstep
    exact Option.noConfusion hstep
  have hfailed : s.failed = false := by
    revert hfr
    cases s.failed <;> simp
  have hsm : simultaneousMax = 6 := rfl
  have hple : s.runningPar.length ≤ totalCount s := by
    simp only [totalCount]
    omega
  have hrunlt : s.running < simultaneousMax := by
    rw [hi1]
    omega
  have hpend : s.pending = [] := by
    rcases hq with hfl | hnq
    · rw [hfailed] at hfl
      exact Bool.noConfusion hfl
    · by_contra hne
      exact hnq ⟨hrunlt, hne⟩
  simp only [schedStep, if_neg hfr] at hstep
  rw [if_pos ht, if_pos hcond] at hstep
  obtain rfl := (Option.some.inj hstep).symm
  rw [checkQueue_singleton ((⟨t.name, t.tries + 1⟩ : VTask) :: s.pending) s.redo
    (s.runningPar.erase t) s.runningRedo (s.running - 1) s.resolved s.failed
    ⟨t.name, t.tries + 1⟩ (by rw [hpend]) (by omega)]
  exact ⟨hpend, List.mem_cons_self _ _, rfl⟩

/-- Claim C5 (witness): In the freshly dispatched five-task queue, the
`1080p` task failing at 5 % progress is running its second attempt
immediately, with nothing pending. -/
theorem c5_front_requeue_immediate_witness :
    tasksAll.length ≤ 5 ∧
    SchedReachable (initSched tasksAll) (initSched tasksAll) ∧
    (⟨"1080p", 0⟩ : VTask) ∈ (initSched tasksAll).runningPar ∧
    parallelRetryCond (0 + 1) 5 = true ∧
    schedStep (initSched tasksAll) (.failPar ⟨"1080p", 0⟩ 5) = some sC5 ∧
    (⟨"1080p", 1⟩ : VTask) ∈ sC5.runningPar ∧ sC5.pending = [] := by
  have hcond : parallelRetryCond (0 + 1) 5 = true := by
    rw [parallelRetryCond_eq]
    decide
  have hstep : schedStep (initSched tasksAll) (.failPar ⟨"1080p", 0⟩ 5) = some sC5 := by
    simp only [schedStep, parallelRetryCond_eq]
    decide
  have hres := c5_front_requeue_immediate tasksAll (initSched tasksAll) ⟨"1080p", 0⟩ 5 sC5
    (by decide) SchedReachable.refl (by decide) hcond hstep
  exact ⟨by decide, SchedReachable.refl, by decide, hcond, hstep, hres.2.1, hres.2.2⟩

end MKVScanner
